import Mathlib

/-!
Verification development for the VocalBridgeOps request-processing core.

The definitions below are a shallow embedding of the TypeScript source:
* `packages/backend/src/config/pricing.ts` (pricing table and `calculateCost`),
* the provider orchestrator (`executeWithResilience` / `executeWithRetry`),
* the tool registry (`ToolRegistry.execute`) and `executeToolCalls`,
* the message pipeline of `packages/backend/src/services/tenant.service.ts`
  (`sendMessage`, `findByIdempotencyKey`, `loadConversationHistory`,
  `createUsageEvent`, `withSessionLock`),
* the sequence generator `get_next_message_sequence` (its fixed form, with the
  `text` parameter and quoted camelCase columns).

Database tables are modelled as lists of rows inside a `DB` record; inserting a
row appends it.  Machine numbers are `Nat`/`Int`/`Rat`.  Randomness (adapter
outcomes, tool outcomes) is threaded as explicit oracle functions, so that every
definition is executable and every run is deterministic given its oracles.
-/

namespace VocalBridge

/-- Upstream AI vendors, enum `ProviderType` of the Prisma schema. -/
inductive Provider
  | VENDOR_A
  | VENDOR_B
deriving DecidableEq, Repr

/-- Display name used in API responses (`pc?.provider ?? 'UNKNOWN'`). -/
def Provider.name : Provider → String
  | .VENDOR_A => "VENDOR_A"
  | .VENDOR_B => "VENDOR_B"

/-! ## Pricing (`config/pricing.ts`) -/

/-- Per-provider price pair, dollars per 1K tokens. -/
structure ProviderPricing where
  inputPricePerKTokens : ℚ
  outputPricePerKTokens : ℚ
deriving DecidableEq, Repr

/-- The process-wide pricing table `PRICING`. -/
def PRICING : Provider → ProviderPricing
  | .VENDOR_A => ⟨2/1000, 4/1000⟩
  | .VENDOR_B => ⟨3/1000, 6/1000⟩

/-- `calculateCost`: cents as the ceiling of
`(tokensIn/1000 * inP + tokensOut/1000 * outP) * 100`. -/
def calculateCost (provider : Provider) (tokensIn tokensOut : ℕ) : ℤ :=
  let pricing := PRICING provider
  let inputCost : ℚ := (tokensIn : ℚ) / 1000 * pricing.inputPricePerKTokens
  let outputCost : ℚ := (tokensOut : ℚ) / 1000 * pricing.outputPricePerKTokens
  ⌈(inputCost + outputCost) * 100⌉

/-- `getPricingSnapshot` returns a copy of the pricing tuple. -/
def getPricingSnapshot (provider : Provider) : ProviderPricing :=
  PRICING provider

/-! ## Provider types (`providers/types.ts`) -/

/-- A tool call emitted by the assistant (`ToolCall`); `args` is an opaque
structured value, modelled as a string. -/
structure ToolCall where
  id : String
  name : String
  args : String
deriving DecidableEq, Repr

/-- A tool execution result attached to a TOOL turn (`ToolResult`). -/
structure ToolResult where
  id : String
  result : Option String
  error : Option String
deriving DecidableEq, Repr

/-- A message of the neutral conversation shape (`ConversationMessage`). -/
structure ConversationMessage where
  role : String
  content : String
  toolCalls : Option (List ToolCall) := none
  toolResults : Option (List ToolResult) := none
deriving DecidableEq, Repr

/-- A tool definition advertised to the provider (`ToolDefinition`);
the JSON-schema `parameters` value is opaque here. -/
structure ToolDefinition where
  name : String
  description : String
deriving DecidableEq, Repr

/-- The neutral provider request (`ProviderRequest`). -/
structure ProviderRequest where
  systemPrompt : String
  messages : List ConversationMessage
  temperature : ℚ
  maxTokens : ℕ
  tools : Option (List ToolDefinition)
deriving DecidableEq, Repr

/-- The neutral provider response (`ProviderResponse`). -/
structure ProviderResponse where
  content : String
  tokensIn : ℕ
  tokensOut : ℕ
  latencyMs : ℕ
  toolCalls : Option (List ToolCall) := none
deriving DecidableEq, Repr

/-! ## Orchestrator (`providers/orchestrator.ts`) -/

/-- Retry configuration (`config.retry` in `config/index.ts`). -/
structure RetryConfig where
  maxAttempts : ℕ
  initialDelayMs : ℕ
  maxDelayMs : ℕ
  backoffMultiplier : ℕ
deriving DecidableEq, Repr

/-- `config.retry`: `maxAttempts 3, initialDelayMs 100, maxDelayMs 5000,
backoffMultiplier 2`. -/
def configRetry : RetryConfig := ⟨3, 100, 5000, 2⟩

/-- `config.session`: `maxHistoryMessages 50, lockTimeoutMs 30000`. -/
def maxHistoryMessages : ℕ := 50

/-- The errors an adapter can throw into the orchestrator
(`ProviderError`, `ProviderSchemaError`, `RateLimitError`, `TimeoutError`
from `utils/errors.ts`).  `ProviderError` may carry an HTTP status code and an
explicit retryable flag. -/
inductive AdapterError
  | providerError (statusCode : Option ℕ) (retryableFlag : Bool) (message : String)
  | providerSchemaError (message : String)
  | rateLimitError (retryAfterMs : Option ℕ) (message : String)
  | timeoutError (message : String)
deriving DecidableEq, Repr

/-- The `message` carried by an adapter error. -/
def AdapterError.message : AdapterError → String
  | .providerError _ _ m => m
  | .providerSchemaError m => m
  | .rateLimitError _ m => m
  | .timeoutError m => m

/-- `isRetryableError`: schema errors are not retryable, rate limits and
timeouts are, provider errors are retryable when the status code is 5xx or the
explicit retryable flag is set. -/
def isRetryableError : AdapterError → Bool
  | .providerSchemaError _ => false
  | .rateLimitError _ _ => true
  | .timeoutError _ => true
  | .providerError sc flag _ =>
      (match sc with
        | some c => decide (500 ≤ c ∧ c < 600)
        | none => false) || flag

/-- `getErrorCode`: error code string reported for a failed attempt. -/
def getErrorCode : AdapterError → String
  | .rateLimitError _ _ => "RATE_LIMITED"
  | .timeoutError _ => "TIMEOUT"
  | .providerSchemaError _ => "PROVIDER_SCHEMA_ERROR"
  | .providerError _ _ _ => "PROVIDER_ERROR"

/-- `getRetryAfterMs`: retry-after hint, only present on rate-limit errors. -/
def getRetryAfterMs : AdapterError → Option ℕ
  | .rateLimitError r _ => r
  | _ => none

/-- Structured error member of a `ProviderCallResult`. -/
structure ErrorInfo where
  code : String
  message : String
  retryable : Bool
  retryAfterMs : Option ℕ := none
deriving DecidableEq, Repr

/-- `ProviderCallResult` of `providers/types.ts`. -/
structure ProviderCallResult where
  success : Bool
  response : Option ProviderResponse
  error : Option ErrorInfo
  provider : Provider
  isFallback : Bool
  attemptNumber : ℕ
  latencyMs : ℕ
deriving DecidableEq, Repr

/-- One recorded error of the orchestrator's `retryState.errors`. -/
structure ErrEntry where
  provider : Provider
  error : AdapterError
  attemptNumber : ℕ
deriving DecidableEq, Repr

/-- Record of one adapter invocation; instrumentation of the embedding (the
source observes these invocations through the adapter itself), used to state
which adapters ran and how often. -/
structure CallEntry where
  provider : Provider
  attemptNumber : ℕ
  isFallback : Bool
deriving DecidableEq, Repr

/-- The orchestrator's `retryState`, plus the instrumented invocation log. -/
structure RetryState where
  attemptNumber : ℕ
  errors : List ErrEntry
  callLog : List CallEntry
deriving DecidableEq, Repr

/-- The behaviour of `adapter.sendMessage`: given the request, the provider and
the cumulative attempt number, the adapter either returns a response or throws
an `AdapterError`.  This oracle stands for the mocked vendors' randomness. -/
def Behavior : Type :=
  ProviderRequest → Provider → ℕ → Except AdapterError ProviderResponse

/-- `executeWithRetry`: the loop `for (attempt = 1; attempt <= maxAttempts;
attempt++)` against one provider, advancing the shared `retryState`; a
non-retryable error or the last attempt returns a failure result immediately.
The loop is indexed here by the number of attempts still allowed (`remaining`,
initially `maxAttempts`; the iteration with `remaining = 1` is the last
attempt), so the recursion is structural.  The `remaining = 0` base case is the
source's unreachable fall-through return after the loop.  (Backoff sleeps have
no effect on the state and are not modelled.) -/
def executeWithRetry (beh : Behavior) (request : ProviderRequest) (provider : Provider)
    (isFallback : Bool) :
    ℕ → RetryState → ProviderCallResult × RetryState
  | 0, st =>
      ({ success := false, response := none,
         error := some ⟨"PROVIDER_ERROR", "Max retries exceeded", false, none⟩,
         provider := provider, isFallback := isFallback,
         attemptNumber := st.attemptNumber, latencyMs := 0 }, st)
  | remaining + 1, st =>
      let st1 : RetryState :=
        { st with attemptNumber := st.attemptNumber + 1,
                  callLog := st.callLog ++ [⟨provider, st.attemptNumber + 1, isFallback⟩] }
      match beh request provider st1.attemptNumber with
      | .ok response =>
          ({ success := true, response := some response, error := none,
             provider := provider, isFallback := isFallback,
             attemptNumber := st1.attemptNumber, latencyMs := response.latencyMs }, st1)
      | .error e =>
          let st2 : RetryState :=
            { st1 with errors := st1.errors ++ [⟨provider, e, st1.attemptNumber⟩] }
          let retryable := isRetryableError e
          let isLastAttempt : Bool := decide (remaining = 0)
          if !retryable || isLastAttempt then
            ({ success := false, response := none,
               error := some ⟨getErrorCode e, e.message, retryable && !isLastAttempt,
                              getRetryAfterMs e⟩,
               provider := provider, isFallback := isFallback,
               attemptNumber := st2.attemptNumber, latencyMs := 0 }, st2)
          else
            executeWithRetry beh request provider isFallback remaining st2

/-- The "All attempts failed" result built at the end of
`executeWithResilience` from the last recorded error. -/
def finalFailureResult (primary : Provider) (fallback : Option Provider)
    (st : RetryState) : ProviderCallResult :=
  match st.errors.getLast? with
  | some lastError =>
      { success := false, response := none,
        error := some ⟨(match lastError.error with
                         | .rateLimitError _ _ => "RATE_LIMITED"
                         | _ => "PROVIDER_ERROR"),
                       lastError.error.message, false, none⟩,
        provider := lastError.provider,
        isFallback := (match fallback with
                        | some fb => decide (lastError.provider = fb)
                        | none => false),
        attemptNumber := st.attemptNumber, latencyMs := 0 }
  | none =>
      { success := false, response := none,
        error := some ⟨"PROVIDER_ERROR", "Max retries exceeded", false, none⟩,
        provider := primary, isFallback := false,
        attemptNumber := st.attemptNumber, latencyMs := 0 }

/-- `executeWithResilience`: primary path, then — only when a fallback provider
is configured and differs from the primary — the fallback path; on total
failure the result is rebuilt from the last recorded error.  Also returns the
final retry state for analysis. -/
def executeWithResilience (beh : Behavior) (request : ProviderRequest)
    (primary : Provider) (fallback : Option Provider) :
    ProviderCallResult × RetryState :=
  let st0 : RetryState := ⟨0, [], []⟩
  let pr := executeWithRetry beh request primary false configRetry.maxAttempts st0
  if pr.1.success then pr
  else
    match fallback with
    | some fb =>
        if fb ≠ primary then
          let fr := executeWithRetry beh request fb true configRetry.maxAttempts pr.2
          if fr.1.success then fr
          else (finalFailureResult primary fallback fr.2, fr.2)
        else (finalFailureResult primary fallback pr.2, pr.2)
    | none => (finalFailureResult primary fallback pr.2, pr.2)

/-! ## Data model (Prisma schema / `migrations/20260104223334_initial_schema`)

Tables are lists of rows; an insert appends.  Row ids are allocated from
per-table counters in the `DB` record. -/

/-- `MessageRole` enum. -/
inductive MessageRole
  | USER
  | ASSISTANT
  | SYSTEM
  | TOOL
deriving DecidableEq, Repr

/-- `msg.role.toLowerCase()` used when building conversation history. -/
def MessageRole.toLower : MessageRole → String
  | .USER => "user"
  | .ASSISTANT => "assistant"
  | .SYSTEM => "system"
  | .TOOL => "tool"

/-- `SessionStatus` enum. -/
inductive SessionStatus
  | ACTIVE
  | ENDED
  | ERROR
deriving DecidableEq, Repr

/-- `ProviderCallStatus` enum. -/
inductive ProviderCallStatus
  | SUCCESS
  | FAILED
  | TIMEOUT
  | RATE_LIMITED
deriving DecidableEq, Repr

/-- The message `content` column.  The pipeline stores either plain text or —
for TOOL rows — the JSON object `{id, result, error}` produced by
`JSON.stringify`; the stringify/parse pair is modelled as this constructor and
pattern matching on it. -/
inductive Content
  | text (s : String)
  | toolData (id : String) (result : Option String) (error : Option String)
deriving DecidableEq, Repr

/-- A `messages` row. -/
structure Msg where
  id : ℕ
  sessionId : String
  sequenceNumber : ℕ
  idempotencyKey : Option String
  role : MessageRole
  content : Content
  toolCalls : Option (List ToolCall)
  providerCallId : Option ℕ
deriving DecidableEq, Repr

/-- A `provider_calls` row. -/
structure PCall where
  id : ℕ
  sessionId : String
  correlationId : String
  provider : Provider
  isFallback : Bool
  tokensIn : ℕ
  tokensOut : ℕ
  latencyMs : ℕ
  status : ProviderCallStatus
  errorCode : Option String
  errorMessage : Option String
  attemptNumber : ℕ
  billed : Bool
deriving DecidableEq, Repr

/-- A `usage_events` row. -/
structure UEvent where
  id : ℕ
  tenantId : String
  agentId : String
  sessionId : String
  providerCallId : ℕ
  provider : Provider
  tokensIn : ℕ
  tokensOut : ℕ
  totalTokens : ℕ
  costCents : ℤ
  pricingSnapshot : ProviderPricing
deriving DecidableEq, Repr

/-- A `sessions` row (the attributes the pipeline reads). -/
structure SessionRow where
  id : String
  tenantId : String
  agentId : String
  customerId : String
  status : SessionStatus
  demoMode : Bool
deriving DecidableEq, Repr

/-- An `agents` row (the attributes the pipeline reads). -/
structure AgentRow where
  id : String
  tenantId : String
  name : String
  primaryProvider : Provider
  fallbackProvider : Option Provider
  systemPrompt : String
  temperature : ℚ
  maxTokens : ℕ
  enabledTools : List String
deriving DecidableEq, Repr

/-- The database plus the in-memory session-lock map (`sessionLocks` holds the
lock keys currently held; `uuidToLockKey` is injective on session ids, so the
key is modelled as the session id itself). -/
structure DB where
  sessions : List SessionRow
  agents : List AgentRow
  messages : List Msg
  providerCalls : List PCall
  usageEvents : List UEvent
  sessionLocks : List String
  nextMsgId : ℕ
  nextPCallId : ℕ
  nextUEventId : ℕ
deriving DecidableEq, Repr

/-- The application errors `sendMessage` can raise (`utils/errors.ts`), plus
`uncaught` for non-`AppError` exceptions (such as a Prisma `P2002`) which the
global error handler maps to `INTERNAL_ERROR`. -/
inductive SendErr
  | conflict (message : String)
  | validation (message : String)
  | notFound (resource : String)
  | uncaught (description : String)
deriving DecidableEq, Repr

/-- The error code of the uniform error envelope. -/
def SendErr.code : SendErr → String
  | .conflict _ => "CONFLICT"
  | .validation _ => "VALIDATION_ERROR"
  | .notFound _ => "NOT_FOUND"
  | .uncaught _ => "INTERNAL_ERROR"

/-! ## Session service (`services/session.service.ts` and the fixed
`get_next_message_sequence` of the later migration, quoted camelCase columns,
`text` parameter) -/

/-- `getSessionWithAgent`: tenant-scoped session lookup with its agent. -/
def getSessionWithAgent (db : DB) (tenantId sessionId : String) :
    Except SendErr (SessionRow × AgentRow) :=
  match db.sessions.find? (fun s => decide (s.id = sessionId ∧ s.tenantId = tenantId)) with
  | none => .error (.notFound "Session")
  | some session =>
      match db.agents.find? (fun a => decide (a.id = session.agentId)) with
      | none => .error (.notFound "Agent")
      | some agent => .ok (session, agent)

/-- `MAX("sequenceNumber")` (with `COALESCE(…, 0)`) over the rows of a message
list belonging to one session. -/
def msgsMaxSeq (sessionId : String) (l : List Msg) : ℕ :=
  (l.filter (fun m => decide (m.sessionId = sessionId))).foldr
    (fun m acc => max m.sequenceNumber acc) 0

/-- `COALESCE(MAX("sequenceNumber"), 0)` over the session's messages. -/
def sessionMaxSeq (db : DB) (sessionId : String) : ℕ :=
  msgsMaxSeq sessionId db.messages

/-- `get_next_message_sequence` / `getNextSequenceNumber`:
`COALESCE(MAX("sequenceNumber"), 0) + 1` under the session row lock. -/
def getNextSequenceNumber (db : DB) (sessionId : String) : ℕ :=
  sessionMaxSeq db sessionId + 1

/-! ## Conversation history and request building -/

/-- Insert a message into a list sorted by ascending `sequenceNumber`. -/
def seqInsert (m : Msg) : List Msg → List Msg
  | [] => [m]
  | x :: xs =>
      if m.sequenceNumber < x.sequenceNumber then m :: x :: xs
      else x :: seqInsert m xs

/-- `ORDER BY sequenceNumber ASC` (insertion sort). -/
def sortBySeq : List Msg → List Msg
  | [] => []
  | x :: xs => seqInsert x (sortBySeq xs)

/-- The raw string of a content column.  The JSON rendering of tool data is
abstracted (no claim observes those bytes). -/
def Content.asString : Content → String
  | .text s => s
  | .toolData _ _ _ => ""

/-- One step of `loadConversationHistory`'s `messages.map`: lower-case the
role, keep tool calls on ASSISTANT rows, decode the `{id, result, error}`
payload of TOOL rows into a singleton `toolResults`. -/
def msgToConversation (m : Msg) : ConversationMessage :=
  { role := m.role.toLower
    content := m.content.asString
    toolCalls := if m.role = MessageRole.ASSISTANT then m.toolCalls else none
    toolResults :=
      match m.role, m.content with
      | MessageRole.TOOL, .toolData i r e => some [⟨i, r, e⟩]
      | _, _ => none }

/-- `loadConversationHistory`: the session's messages ordered by ascending
`sequenceNumber`, limited by `take: config.session.maxHistoryMessages`
(a positive `take`, i.e. the first `maxHistoryMessages` rows of the ascending
order), translated to neutral conversation messages. -/
def loadConversationHistory (db : DB) (sessionId : String) : List ConversationMessage :=
  ((sortBySeq (db.messages.filter (fun m => decide (m.sessionId = sessionId)))).take
      maxHistoryMessages).map msgToConversation

/-- `buildProviderRequest`: agent knobs, the history, the new user turn, and
the tool catalog (only `InvoiceLookup` is wired up in the source). -/
def buildProviderRequest (agent : AgentRow) (history : List ConversationMessage)
    (newMessage : String) : ProviderRequest :=
  let tools : Option (List ToolDefinition) :=
    if agent.enabledTools.length > 0 then
      if agent.enabledTools.contains "InvoiceLookup" then
        some [⟨"InvoiceLookup", "Look up invoice or order details by order ID"⟩]
      else none
    else none
  { systemPrompt := agent.systemPrompt
    temperature := agent.temperature
    maxTokens := agent.maxTokens
    messages := history ++ [{ role := "user", content := newMessage }]
    tools := tools }

/-! ## Idempotency lookup and response formatting -/

/-- `findByIdempotencyKey`: the USER message of this session with the key, then
the ASSISTANT message at its `sequenceNumber + 1`. -/
def findByIdempotencyKey (db : DB) (sessionId idempotencyKey : String) : Option Msg :=
  match db.messages.find? (fun m =>
      decide (m.sessionId = sessionId ∧ m.idempotencyKey = some idempotencyKey ∧
        m.role = MessageRole.USER)) with
  | none => none
  | some userMessage =>
      db.messages.find? (fun m =>
        decide (m.sessionId = sessionId ∧
          m.sequenceNumber = userMessage.sequenceNumber + 1 ∧
          m.role = MessageRole.ASSISTANT))

/-- The `metadata` bundle of a message response. -/
structure ResponseMetadata where
  provider : String
  tokensIn : ℕ
  tokensOut : ℕ
  latencyMs : ℕ
  correlationId : String
  usedFallback : Bool
deriving DecidableEq, Repr

/-- The `MessageResponse` returned by `sendMessage`. -/
structure MessageResponse where
  id : ℕ
  sessionId : String
  role : MessageRole
  content : Content
  toolCalls : Option (List ToolCall)
  metadata : ResponseMetadata
deriving DecidableEq, Repr

/-- `formatMessageResponse`: the message plus metadata from its provider call
(defaults when the reference is absent). -/
def formatMessageResponse (db : DB) (m : Msg) : MessageResponse :=
  let pc : Option PCall :=
    match m.providerCallId with
    | some pcid => db.providerCalls.find? (fun r => decide (r.id = pcid))
    | none => none
  { id := m.id
    sessionId := m.sessionId
    role := m.role
    content := m.content
    toolCalls := m.toolCalls
    metadata :=
      { provider := (match pc with | some p => p.provider.name | none => "UNKNOWN")
        tokensIn := (match pc with | some p => p.tokensIn | none => 0)
        tokensOut := (match pc with | some p => p.tokensOut | none => 0)
        latencyMs := (match pc with | some p => p.latencyMs | none => 0)
        correlationId := (match pc with | some p => p.correlationId | none => "")
        usedFallback := (match pc with | some p => p.isFallback | none => false) } }

/-! ## Row insertion -/

/-- `prisma.message.create` without a constraint to violate: append the row. -/
def appendMessage (db : DB) (sessionId : String) (sequenceNumber : ℕ)
    (idempotencyKey : Option String) (role : MessageRole) (content : Content)
    (toolCalls : Option (List ToolCall)) (providerCallId : Option ℕ) : DB × Msg :=
  let m : Msg := ⟨db.nextMsgId, sessionId, sequenceNumber, idempotencyKey, role,
    content, toolCalls, providerCallId⟩
  ({ db with messages := db.messages ++ [m], nextMsgId := db.nextMsgId + 1 }, m)

/-- `prisma.message.create` under the unique constraint
`(sessionId, idempotencyKey)`: a violation is the Prisma `P2002` error. -/
def insertMessage (db : DB) (sessionId : String) (sequenceNumber : ℕ)
    (idempotencyKey : Option String) (role : MessageRole) (content : Content)
    (toolCalls : Option (List ToolCall)) (providerCallId : Option ℕ) :
    Except Unit (DB × Msg) :=
  match idempotencyKey with
  | some k =>
      if db.messages.any (fun x =>
          decide (x.sessionId = sessionId ∧ x.idempotencyKey = some k)) then
        .error ()
      else
        .ok (appendMessage db sessionId sequenceNumber idempotencyKey role content
          toolCalls providerCallId)
  | none =>
      .ok (appendMessage db sessionId sequenceNumber idempotencyKey role content
        toolCalls providerCallId)

/-- `getProviderCallStatus` of `tenant.service.ts`. -/
def getProviderCallStatus : Option String → ProviderCallStatus
  | some "TIMEOUT" => .TIMEOUT
  | some "RATE_LIMITED" => .RATE_LIMITED
  | _ => .FAILED

/-- `prisma.providerCall.create` with the data the pipeline assembles from an
orchestrator result (persisted on success and on failure alike). -/
def insertProviderCall (db : DB) (sessionId correlationId : String)
    (result : ProviderCallResult) : DB × PCall :=
  let pc : PCall :=
    { id := db.nextPCallId
      sessionId := sessionId
      correlationId := correlationId
      provider := result.provider
      isFallback := result.isFallback
      tokensIn := (match result.response with | some r => r.tokensIn | none => 0)
      tokensOut := (match result.response with | some r => r.tokensOut | none => 0)
      latencyMs := result.latencyMs
      status :=
        if result.success then .SUCCESS
        else getProviderCallStatus (result.error.map (·.code))
      errorCode := result.error.map (·.code)
      errorMessage := result.error.map (·.message)
      attemptNumber := result.attemptNumber
      billed := false }
  ({ db with providerCalls := db.providerCalls ++ [pc],
             nextPCallId := db.nextPCallId + 1 }, pc)

/-! ## Billing recorder (`createUsageEvent`) -/

/-- `createUsageEvent`: skip demo sessions and non-successful calls; inside one
transaction, conditionally set `billed = true` where `id = pc.id AND billed =
false` (`updateMany`); zero affected rows means another worker billed the call
— return silently; otherwise insert the usage event.  A unique-constraint
violation on `usage_events.providerCallId` rolls the transaction back and is
caught (`P2002`), again returning silently. -/
def createUsageEvent (db : DB) (tenantId agentId sessionId : String)
    (demoMode : Bool) (pc : PCall) : DB :=
  if demoMode then db
  else if pc.status ≠ ProviderCallStatus.SUCCESS then db
  else
    let costCents := calculateCost pc.provider pc.tokensIn pc.tokensOut
    let updatedCount :=
      (db.providerCalls.filter (fun r => decide (r.id = pc.id ∧ r.billed = false))).length
    if updatedCount = 0 then db
    else if db.usageEvents.any (fun u => decide (u.providerCallId = pc.id)) then db
    else
      { db with
        providerCalls := db.providerCalls.map (fun r =>
          if decide (r.id = pc.id ∧ r.billed = false) then { r with billed := true } else r)
        usageEvents := db.usageEvents ++
          [{ id := db.nextUEventId
             tenantId := tenantId
             agentId := agentId
             sessionId := sessionId
             providerCallId := pc.id
             provider := pc.provider
             tokensIn := pc.tokensIn
             tokensOut := pc.tokensOut
             totalTokens := pc.tokensIn + pc.tokensOut
             costCents := costCents
             pricingSnapshot := getPricingSnapshot pc.provider }]
        nextUEventId := db.nextUEventId + 1 }

/-! ## Tool registry (`tools/registry.ts`) and `executeToolCalls` -/

/-- The value a tool's `execute` resolves to (`ToolResult` of `tools/types.ts`;
`data` is opaque). -/
structure ToolResultVal where
  success : Bool
  data : Option String := none
  error : Option String := none
deriving DecidableEq, Repr

/-- What happens when a registered, enabled tool is run under its declared
timeout: it completes with a value, its timeout expires, or it throws. -/
inductive ExecOutcome
  | completes (result : ToolResultVal)
  | timesOut
  | throws (message : String)
deriving DecidableEq, Repr

/-- Oracle for tool execution, by tool name and arguments. -/
def ToolOracle : Type := String → String → ExecOutcome

/-- The errors `ToolRegistry.execute` throws before running the tool. -/
inductive RegistryError
  | notFound (message : String)
  | forbidden (message : String)
deriving DecidableEq, Repr

/-- The thrown error's message. -/
def RegistryError.message : RegistryError → String
  | .notFound m => m
  | .forbidden m => m

/-- `ToolRegistry.execute`: throw NOT_FOUND for an unregistered name, FORBIDDEN
for a name outside the agent's enabled set; otherwise run the tool under its
timeout, converting a timeout expiry or a thrown exception into a failed
`ToolResult`.  (The per-invocation `ToolExecution` audit row is written
fire-and-forget in the source — a failure there is logged and ignored — and is
not part of this model.) -/
def registryExecute (registered : List String) (oracle : ToolOracle)
    (toolName args : String) (agentEnabledTools : List String) :
    Except RegistryError ToolResultVal :=
  if ¬ registered.contains toolName then
    .error (.notFound ("Tool '" ++ toolName ++ "' not found"))
  else if ¬ agentEnabledTools.contains toolName then
    .error (.forbidden ("Tool '" ++ toolName ++ "' is not enabled for this agent"))
  else
    match oracle toolName args with
    | .completes r => .ok r
    | .timesOut => .ok { success := false, error := some ("Tool '" ++ toolName ++ "' timed out") }
    | .throws msg => .ok { success := false, error := some msg }

/-- `executeToolCalls` of `tenant.service.ts`: run every requested call through
the registry, catching anything it throws; each call yields exactly one
`{id, result, error?}` entry (`result` is the tool's data only on success). -/
def executeToolCalls (registered : List String) (oracle : ToolOracle)
    (toolCalls : List ToolCall) (agentEnabledTools : List String) : List ToolResult :=
  toolCalls.map (fun tc =>
    match registryExecute registered oracle tc.name tc.args agentEnabledTools with
    | .ok r => ⟨tc.id, if r.success then r.data else none, r.error⟩
    | .error e => ⟨tc.id, none, some e.message⟩)

/-- The registry singleton registers only `InvoiceLookup`. -/
def registeredTools : List String := ["InvoiceLookup"]

/-! ## Message pipeline (`sendMessage`) -/

/-- `SendMessageInput`. -/
structure SendMessageInput where
  content : String
  idempotencyKey : Option String := none
  correlationId : Option String := none
deriving DecidableEq, Repr

/-- Observable pipeline effects, instrumentation of the embedding used to state
which side-effecting collaborators ran. -/
inductive Event
  | lockAcquired
  | providerInvoked
  | billingInvoked
deriving DecidableEq, Repr

deriving instance DecidableEq for Except

/-- Result of one `sendMessage` run: the returned value or thrown error, the
database afterwards, and the effect trace. -/
structure SendOutcome where
  result : Except SendErr MessageResponse
  db : DB
  trace : List Event
deriving DecidableEq, Repr

/-- `result.error?.message || default` (the failure branches of steps 7/8d). -/
def orchestratorFailureMessage (result : ProviderCallResult) (dflt : String) : String :=
  match result.error with
  | some e => e.message
  | none => dflt

/-- One `for (const toolResult of toolResults)` iteration: allocate a sequence
number, persist one TOOL message whose content encodes `{id, result, error}`. -/
def storeToolMessages (db : DB) (sessionId : String) : List ToolResult → DB
  | [] => db
  | r :: rs =>
      let toolSequence := getNextSequenceNumber db sessionId
      let db1 := (appendMessage db sessionId toolSequence none .TOOL
        (.toolData r.id r.result r.error) none none).1
      storeToolMessages db1 sessionId rs

/-- Step 8 of `sendMessage` (the tool-call loop) followed by steps 9–10:
persist the interim ASSISTANT message with its tool calls, run every tool call,
persist one TOOL message per result, rebuild the history, make the follow-up
provider call, persist its record, and on success persist the final ASSISTANT
message and bill both provider calls. -/
def runToolLoop (beh : Behavior) (registered : List String) (tor : ToolOracle)
    (db2 : DB) (pc1 : PCall) (tenantId sessionId correlationId : String)
    (agent : AgentRow) (session : SessionRow) (response : ProviderResponse)
    (toolCallsList : List ToolCall) : SendOutcome :=
  let assistantSequence := getNextSequenceNumber db2 sessionId
  let interimIns := appendMessage db2 sessionId assistantSequence none
    .ASSISTANT (.text response.content) (some toolCallsList) (some pc1.id)
  let toolResults := executeToolCalls registered tor toolCallsList agent.enabledTools
  let db4 := storeToolMessages interimIns.1 sessionId toolResults
  let updatedHistory := loadConversationHistory db4 sessionId
  let toolResultRequest := buildProviderRequest agent updatedHistory ""
  let finalResult := (executeWithResilience beh toolResultRequest
    agent.primaryProvider agent.fallbackProvider).1
  let pc2Ins := insertProviderCall db4 sessionId correlationId finalResult
  match finalResult.response, finalResult.success with
  | none, _ =>
      ⟨.error (.validation (orchestratorFailureMessage finalResult
          "Failed to get final response from AI provider")),
       pc2Ins.1, [.providerInvoked, .providerInvoked]⟩
  | some _, false =>
      ⟨.error (.validation (orchestratorFailureMessage finalResult
          "Failed to get final response from AI provider")),
       pc2Ins.1, [.providerInvoked, .providerInvoked]⟩
  | some finalResponse, true =>
    -- Step 9: final assistant message
    let finalSequence := getNextSequenceNumber pc2Ins.1 sessionId
    let finalIns := appendMessage pc2Ins.1 sessionId finalSequence none
      .ASSISTANT (.text finalResponse.content) finalResponse.toolCalls
      (some pc2Ins.2.id)
    -- Step 10: bill the initial call (tool round), then the final call
    let db7 := createUsageEvent finalIns.1 tenantId agent.id sessionId
      session.demoMode pc1
    let db8 := createUsageEvent db7 tenantId agent.id sessionId
      session.demoMode pc2Ins.2
    ⟨.ok (formatMessageResponse db8 finalIns.2), db8,
     [.providerInvoked, .providerInvoked, .billingInvoked, .billingInvoked]⟩

/-- Steps 9–10 of `sendMessage` when the response carries no tool calls:
persist the final ASSISTANT message and bill the single provider call. -/
def finishNoTool (db2 : DB) (pc1 : PCall) (tenantId sessionId : String)
    (agent : AgentRow) (session : SessionRow) (response : ProviderResponse) :
    SendOutcome :=
  let assistantSequence := getNextSequenceNumber db2 sessionId
  let finalIns := appendMessage db2 sessionId assistantSequence none
    .ASSISTANT (.text response.content) response.toolCalls (some pc1.id)
  let db4 := createUsageEvent finalIns.1 tenantId agent.id sessionId
    session.demoMode pc1
  ⟨.ok (formatMessageResponse db4 finalIns.2), db4,
   [.providerInvoked, .billingInvoked]⟩

/-- Steps 3–10 of `sendMessage`: everything inside the session lock. -/
def sendMessageBody (beh : Behavior) (registered : List String) (tor : ToolOracle)
    (db : DB) (tenantId sessionId : String) (input : SendMessageInput)
    (correlationId : String) : SendOutcome :=
  -- Step 3: load session and agent context
  match getSessionWithAgent db tenantId sessionId with
  | .error e => ⟨.error e, db, []⟩
  | .ok (session, agent) =>
    if session.status ≠ SessionStatus.ACTIVE then
      ⟨.error (.validation "Cannot send message to ended session"), db, []⟩
    else
      -- Step 4: history and provider request
      let history := loadConversationHistory db sessionId
      let providerRequest := buildProviderRequest agent history input.content
      -- Step 5: store user message first
      let userSequence := getNextSequenceNumber db sessionId
      match insertMessage db sessionId userSequence input.idempotencyKey .USER
          (.text input.content) none none with
      | .error _ =>
          -- the unique-constraint violation is NOT caught in the source:
          -- the raw Prisma error propagates out of the pipeline
          ⟨.error (.uncaught "P2002"), db, []⟩
      | .ok (db1, _userMessage) =>
        -- Step 6: call provider with retry/fallback
        let result := (executeWithResilience beh providerRequest
          agent.primaryProvider agent.fallbackProvider).1
        -- Step 7: store provider call record (also on failure)
        let pcIns := insertProviderCall db1 sessionId correlationId result
        match result.response, result.success with
        | none, _ =>
            ⟨.error (.validation (orchestratorFailureMessage result
                "Failed to get response from AI provider")),
             pcIns.1, [.providerInvoked]⟩
        | some _, false =>
            ⟨.error (.validation (orchestratorFailureMessage result
                "Failed to get response from AI provider")),
             pcIns.1, [.providerInvoked]⟩
        | some response, true =>
          match response.toolCalls with
          | some (tc0 :: tcRest) =>
            -- Step 8: tool-call loop, then steps 9–10
            runToolLoop beh registered tor pcIns.1 pcIns.2 tenantId sessionId
              correlationId agent session response (tc0 :: tcRest)
          | _ =>
            -- Steps 9–10 without tools
            finishNoTool pcIns.1 pcIns.2 tenantId sessionId agent session response

/-- `withSessionLock`: fail fast with CONFLICT when the key is held, otherwise
hold the key for the critical section and delete it on every exit path
(the source's `finally`). -/
def sendMessageLocked (beh : Behavior) (registered : List String) (tor : ToolOracle)
    (db : DB) (tenantId sessionId : String) (input : SendMessageInput)
    (correlationId : String) : SendOutcome :=
  if db.sessionLocks.contains sessionId then
    ⟨.error (.conflict "Session is currently processing another message. Please retry."),
     db, []⟩
  else
    let dbLocked := { db with sessionLocks := sessionId :: db.sessionLocks }
    let out := sendMessageBody beh registered tor dbLocked tenantId sessionId input
      correlationId
    ⟨out.result, { out.db with sessionLocks := out.db.sessionLocks.erase sessionId },
     .lockAcquired :: out.trace⟩

/-- `sendMessage`: the idempotency pre-check (step 1) short-circuits to the
stored response; otherwise the locked pipeline body runs.  `correlationId`
falls back to a generated one. -/
def sendMessage (beh : Behavior) (registered : List String) (tor : ToolOracle)
    (db : DB) (tenantId sessionId : String) (input : SendMessageInput) : SendOutcome :=
  let correlationId := input.correlationId.getD "corr-generated"
  match input.idempotencyKey with
  | some k =>
      match findByIdempotencyKey db sessionId k with
      | some existing => ⟨.ok (formatMessageResponse db existing), db, []⟩
      | none => sendMessageLocked beh registered tor db tenantId sessionId input
          correlationId
  | none => sendMessageLocked beh registered tor db tenantId sessionId input
      correlationId

/-! ## Derived counts -/

/-- `count(usage_events where providerCallId = pcId)`. -/
def billedCount (db : DB) (pcId : ℕ) : ℕ :=
  (db.usageEvents.filter (fun u => decide (u.providerCallId = pcId))).length

/-- Number of TOOL-role rows in the message table. -/
def toolMessageCount (db : DB) : ℕ :=
  (db.messages.filter (fun m => decide (m.role = MessageRole.TOOL))).length

/-! ## Concrete fixtures (used by witnesses and counterexamples) -/

/-- An agent with both providers configured and `InvoiceLookup` enabled. -/
def demoAgent : AgentRow :=
  { id := "agent-1", tenantId := "tenant-1", name := "Support Bot"
    primaryProvider := .VENDOR_A, fallbackProvider := some .VENDOR_B
    systemPrompt := "You are a helpful assistant.", temperature := 7/10
    maxTokens := 1024, enabledTools := ["InvoiceLookup"] }

/-- An ACTIVE non-demo session of that agent. -/
def demoSession : SessionRow :=
  { id := "session-1", tenantId := "tenant-1", agentId := "agent-1"
    customerId := "customer-1", status := .ACTIVE, demoMode := false }

/-- A database holding just the session and agent. -/
def db0 : DB :=
  { sessions := [demoSession], agents := [demoAgent], messages := []
    providerCalls := [], usageEvents := [], sessionLocks := []
    nextMsgId := 1, nextPCallId := 1, nextUEventId := 1 }

/-- A minimal provider request for exercising the orchestrator directly. -/
def reqDummy : ProviderRequest :=
  { systemPrompt := "s", messages := [], temperature := 1, maxTokens := 10, tools := none }

/-- Adapter oracle: every attempt succeeds without tool calls. -/
def behOk : Behavior :=
  fun _ _ _ => .ok { content := "Hello!", tokensIn := 10, tokensOut := 20, latencyMs := 100 }

/-- Adapter oracle: every attempt fails with a retryable HTTP 500. -/
def behFail : Behavior :=
  fun _ _ _ => .error (.providerError (some 500) false "Internal server error")

/-- Adapter oracle: the first round requests an `InvoiceLookup` tool call, the
follow-up round (whose history contains a tool turn) answers in prose. -/
def behTool : Behavior :=
  fun req _ _ =>
    if req.messages.any (fun m => decide (m.role = "tool")) then
      .ok { content := "Your order shipped.", tokensIn := 12, tokensOut := 8, latencyMs := 90 }
    else
      .ok { content := "", tokensIn := 9, tokensOut := 4, latencyMs := 80
            toolCalls := some [⟨"call-1", "InvoiceLookup", "orderId=12345"⟩] }

/-- Tool oracle: executions complete successfully. -/
def torOk : ToolOracle := fun _ _ => .completes { success := true, data := some "order shipped" }

/-- Tool oracle: every execution throws. -/
def torThrow : ToolOracle := fun _ _ => .throws "boom"

/-- A successful, still unbilled provider call. -/
def pcSample : PCall :=
  { id := 1, sessionId := "session-1", correlationId := "corr-1", provider := .VENDOR_A
    isFallback := false, tokensIn := 150, tokensOut := 200, latencyMs := 300
    status := .SUCCESS, errorCode := none, errorMessage := none
    attemptNumber := 1, billed := false }

/-- `db0` with `pcSample` persisted. -/
def dbBill : DB := { db0 with providerCalls := [pcSample], nextPCallId := 2 }

/-- A database where the idempotency key "K" is already consumed by a USER
message that never received an assistant reply (e.g. a crashed or failed
earlier pipeline run). -/
def dbRaced : DB :=
  { db0 with
    messages := [⟨1, "session-1", 1, some "K", .USER, .text "hello", none, none⟩]
    nextMsgId := 2 }

/-- A session transcript with 51 messages, sequence numbers 1..51, message
`i` carrying content `toString i`. -/
def db51 : DB :=
  { db0 with
    messages := (List.range 51).map (fun i =>
      ⟨i + 1, "session-1", i + 1, none, .USER, .text (toString (i + 1)), none, none⟩)
    nextMsgId := 52 }

/-! ## Helper lemmas -/

theorem getLast?_mem {α : Type} : ∀ {l : List α} {a : α}, l.getLast? = some a → a ∈ l
  | [x], a, h => by simp [List.getLast?] at h; simp [h]
  | x :: y :: ys, a, h => by
      rw [List.getLast?_cons_cons] at h
      exact List.mem_cons_of_mem x (getLast?_mem h)

theorem find?_append_none {α : Type} {p : α → Bool} {l1 l2 : List α}
    (h : l1.find? p = none) : (l1 ++ l2).find? p = l2.find? p := by
  rw [List.find?_append, h]; rfl

theorem foldr_max_init (l : List Msg) (i : ℕ) :
    l.foldr (fun m acc => max m.sequenceNumber acc) i
      = max (l.foldr (fun m acc => max m.sequenceNumber acc) 0) i := by
  induction l with
  | nil => simp
  | cons x xs ih => simp [ih, max_assoc]

theorem msgsMaxSeq_append (sid : String) (l1 l2 : List Msg) :
    msgsMaxSeq sid (l1 ++ l2) = max (msgsMaxSeq sid l1) (msgsMaxSeq sid l2) := by
  unfold msgsMaxSeq
  rw [List.filter_append, List.foldr_append, foldr_max_init]

theorem le_msgsMaxSeq {sid : String} {l : List Msg} {m : Msg} (hm : m ∈ l)
    (hs : m.sessionId = sid) : m.sequenceNumber ≤ msgsMaxSeq sid l := by
  induction l with
  | nil => cases hm
  | cons x xs ih =>
      unfold msgsMaxSeq at ih ⊢
      rcases List.mem_cons.mp hm with rfl | hmem
      · rw [List.filter_cons, if_pos (by simp [hs])]
        exact le_max_left _ _
      · rw [List.filter_cons]
        by_cases hx : x.sessionId = sid
        · rw [if_pos (by simp [hx])]
          exact le_trans (ih hmem) (le_max_right _ _)
        · rw [if_neg (by simp [hx])]
          exact ih hmem

theorem msgsMaxSeq_singleton (sid : String) (m : Msg) :
    msgsMaxSeq sid [m] = if m.sessionId = sid then m.sequenceNumber else 0 := by
  unfold msgsMaxSeq
  by_cases h : m.sessionId = sid <;> simp [List.filter, h]

theorem createUsageEvent_messages (db : DB) (t a s : String) (d : Bool) (pc : PCall) :
    (createUsageEvent db t a s d pc).messages = db.messages := by
  simp only [createUsageEvent]
  repeat' split
  all_goals rfl

theorem createUsageEvent_sessionLocks (db : DB) (t a s : String) (d : Bool) (pc : PCall) :
    (createUsageEvent db t a s d pc).sessionLocks = db.sessionLocks := by
  simp only [createUsageEvent]
  repeat' split
  all_goals rfl

theorem storeToolMessages_frame (sid : String) :
    ∀ (rs : List ToolResult) (db : DB),
      (storeToolMessages db sid rs).sessionLocks = db.sessionLocks ∧
      (storeToolMessages db sid rs).providerCalls = db.providerCalls ∧
      (storeToolMessages db sid rs).usageEvents = db.usageEvents ∧
      (storeToolMessages db sid rs).sessions = db.sessions ∧
      (storeToolMessages db sid rs).agents = db.agents := by
  intro rs
  induction rs with
  | nil => intro db; simp [storeToolMessages]
  | cons r rest ih =>
      intro db
      obtain ⟨i1, i2, i3, i4, i5⟩ := ih
        (appendMessage db sid (getNextSequenceNumber db sid) none .TOOL
          (.toolData r.id r.result r.error) none none).1
      refine ⟨?_, ?_, ?_, ?_, ?_⟩
      · simp only [storeToolMessages]; rw [i1]; simp [appendMessage]
      · simp only [storeToolMessages]; rw [i2]; simp [appendMessage]
      · simp only [storeToolMessages]; rw [i3]; simp [appendMessage]
      · simp only [storeToolMessages]; rw [i4]; simp [appendMessage]
      · simp only [storeToolMessages]; rw [i5]; simp [appendMessage]

theorem storeToolMessages_messages (sid : String) :
    ∀ (rs : List ToolResult) (db : DB),
      ∃ L, (storeToolMessages db sid rs).messages = db.messages ++ L ∧
        L.length = rs.length ∧ ∀ m ∈ L, m.role = MessageRole.TOOL := by
  intro rs
  induction rs with
  | nil => intro db; exact ⟨[], by simp [storeToolMessages], by simp, by simp⟩
  | cons r rest ih =>
      intro db
      obtain ⟨L, h1, h2, h3⟩ := ih
        (appendMessage db sid (getNextSequenceNumber db sid) none .TOOL
          (.toolData r.id r.result r.error) none none).1
      refine ⟨(appendMessage db sid (getNextSequenceNumber db sid) none .TOOL
          (.toolData r.id r.result r.error) none none).2 :: L, ?_, by simp [h2], ?_⟩
      · rw [storeToolMessages, h1]
        simp [appendMessage]
      · intro m hm
        rcases List.mem_cons.mp hm with rfl | hmem
        · rfl
        · exact h3 m hmem

/-- `findByIdempotencyKey` after a fresh pipeline run appended, to a table with
no prior occurrence of the key, a USER row `um` at the successor of the
session's maximal sequence number, immediately followed by an ASSISTANT row
`am` at `um.sequenceNumber + 1`. -/
theorem findByIdempotencyKey_fresh (msgs : List Msg) (sid k : String)
    (um am : Msg) (rest : List Msg) (db' : DB)
    (hmsgs : db'.messages = msgs ++ um :: am :: rest)
    (hno : ∀ x ∈ msgs, ¬(x.sessionId = sid ∧ x.idempotencyKey = some k))
    (humsid : um.sessionId = sid) (humkey : um.idempotencyKey = some k)
    (humrole : um.role = MessageRole.USER)
    (humseq : um.sequenceNumber = msgsMaxSeq sid msgs + 1)
    (hamsid : am.sessionId = sid) (hamrole : am.role = MessageRole.ASSISTANT)
    (hamseq : am.sequenceNumber = um.sequenceNumber + 1) :
    findByIdempotencyKey db' sid k = some am := by
  have houter : (msgs ++ um :: am :: rest).find? (fun m =>
      decide (m.sessionId = sid ∧ m.idempotencyKey = some k ∧
        m.role = MessageRole.USER)) = some um := by
    rw [find?_append_none (List.find?_eq_none.mpr ?_), List.find?_cons_of_pos]
    · simp [humsid, humkey, humrole]
    · intro x hx
      simp only [decide_eq_true_eq]
      intro ⟨hxs, hxk, _⟩
      exact hno x hx ⟨hxs, hxk⟩
  have hinner : (msgs ++ um :: am :: rest).find? (fun m =>
      decide (m.sessionId = sid ∧ m.sequenceNumber = um.sequenceNumber + 1 ∧
        m.role = MessageRole.ASSISTANT)) = some am := by
    rw [find?_append_none (List.find?_eq_none.mpr ?_)]
    · rw [List.find?_cons_of_neg, List.find?_cons_of_pos]
      · simp [hamsid, hamseq, hamrole]
      · simp only [decide_eq_true_eq]
        intro ⟨_, hseq, _⟩
        omega
    · intro x hx
      simp only [decide_eq_true_eq]
      intro ⟨hxs, hxseq, _⟩
      have := le_msgsMaxSeq hx hxs
      omega
  unfold findByIdempotencyKey
  rw [hmsgs, houter]
  exact hinner

theorem any_eq_false_key {l : List Msg} {sid k : String}
    (h : ¬(l.any (fun x => decide (x.sessionId = sid ∧ x.idempotencyKey = some k))) = true) :
    ∀ x ∈ l, ¬(x.sessionId = sid ∧ x.idempotencyKey = some k) := by
  intro x hx
  have hfalse : (l.any (fun x => decide (x.sessionId = sid ∧ x.idempotencyKey = some k))) = false :=
    Bool.eq_false_iff.mpr h
  have := List.any_eq_false.mp hfalse x hx
  simpa using this

/-- Auxiliary form of `findByIdempotencyKey_fresh` taking the table shape as an
existential. -/
theorem findByIdempotencyKey_fresh_any (msgs : List Msg) (sid k : String)
    (um am : Msg) (db' : DB)
    (hmsgs : ∃ rest, db'.messages = msgs ++ um :: am :: rest)
    (hno : ∀ x ∈ msgs, ¬(x.sessionId = sid ∧ x.idempotencyKey = some k))
    (humsid : um.sessionId = sid) (humkey : um.idempotencyKey = some k)
    (humrole : um.role = MessageRole.USER)
    (humseq : um.sequenceNumber = msgsMaxSeq sid msgs + 1)
    (hamsid : am.sessionId = sid) (hamrole : am.role = MessageRole.ASSISTANT)
    (hamseq : am.sequenceNumber = um.sequenceNumber + 1) :
    findByIdempotencyKey db' sid k = some am := by
  obtain ⟨rest, h⟩ := hmsgs
  exact findByIdempotencyKey_fresh msgs sid k um am rest db' h hno humsid humkey
    humrole humseq hamsid hamrole hamseq

/-- `finishNoTool` leaves the table so that `findByIdempotencyKey` retrieves
the final ASSISTANT message right after the fresh USER message. -/
theorem finishNoTool_find (db2 : DB) (pc1 : PCall) (tid sid : String)
    (agent : AgentRow) (session : SessionRow) (response : ProviderResponse)
    (msgs : List Msg) (um : Msg) (k : String)
    (hmsgs : db2.messages = msgs ++ [um])
    (hno : ∀ x ∈ msgs, ¬(x.sessionId = sid ∧ x.idempotencyKey = some k))
    (humsid : um.sessionId = sid) (humkey : um.idempotencyKey = some k)
    (humrole : um.role = MessageRole.USER)
    (humseq : um.sequenceNumber = msgsMaxSeq sid msgs + 1) :
    ∃ am, findByIdempotencyKey
      (finishNoTool db2 pc1 tid sid agent session response).db sid k = some am := by
  have hamseq : (appendMessage db2 sid (getNextSequenceNumber db2 sid) none
      .ASSISTANT (.text response.content) response.toolCalls (some pc1.id)).2.sequenceNumber
      = um.sequenceNumber + 1 := by
    show getNextSequenceNumber db2 sid = um.sequenceNumber + 1
    unfold getNextSequenceNumber sessionMaxSeq
    rw [hmsgs, msgsMaxSeq_append, msgsMaxSeq_singleton, if_pos humsid]
    omega
  refine ⟨_, findByIdempotencyKey_fresh_any msgs sid k um
    (appendMessage db2 sid (getNextSequenceNumber db2 sid) none .ASSISTANT
      (.text response.content) response.toolCalls (some pc1.id)).2 _
    ⟨[], ?_⟩ hno humsid humkey humrole humseq rfl rfl hamseq⟩
  simp only [finishNoTool]
  rw [createUsageEvent_messages]
  simp [appendMessage, hmsgs]

/-- `runToolLoop` leaves the table so that `findByIdempotencyKey` retrieves
the interim ASSISTANT message right after the fresh USER message, on success
and on follow-up failure alike. -/
theorem runToolLoop_find (beh : Behavior) (reg : List String) (tor : ToolOracle)
    (db2 : DB) (pc1 : PCall) (tid sid corr : String) (agent : AgentRow)
    (session : SessionRow) (response : ProviderResponse) (tcs : List ToolCall)
    (msgs : List Msg) (um : Msg) (k : String)
    (hmsgs : db2.messages = msgs ++ [um])
    (hno : ∀ x ∈ msgs, ¬(x.sessionId = sid ∧ x.idempotencyKey = some k))
    (humsid : um.sessionId = sid) (humkey : um.idempotencyKey = some k)
    (humrole : um.role = MessageRole.USER)
    (humseq : um.sequenceNumber = msgsMaxSeq sid msgs + 1) :
    ∃ am, findByIdempotencyKey
      (runToolLoop beh reg tor db2 pc1 tid sid corr agent session response tcs).db
      sid k = some am := by
  obtain ⟨L, hL, hLlen, hLrole⟩ := storeToolMessages_messages sid
    (executeToolCalls reg tor tcs agent.enabledTools)
    (appendMessage db2 sid (getNextSequenceNumber db2 sid) none .ASSISTANT
      (.text response.content) (some tcs) (some pc1.id)).1
  have hamseq : (appendMessage db2 sid (getNextSequenceNumber db2 sid) none
      .ASSISTANT (.text response.content) (some tcs) (some pc1.id)).2.sequenceNumber
      = um.sequenceNumber + 1 := by
    show getNextSequenceNumber db2 sid = um.sequenceNumber + 1
    unfold getNextSequenceNumber sessionMaxSeq
    rw [hmsgs, msgsMaxSeq_append, msgsMaxSeq_singleton, if_pos humsid]
    omega
  have hdb4 : (storeToolMessages
      (appendMessage db2 sid (getNextSequenceNumber db2 sid) none .ASSISTANT
        (.text response.content) (some tcs) (some pc1.id)).1 sid
      (executeToolCalls reg tor tcs agent.enabledTools)).messages
      = msgs ++ um :: (appendMessage db2 sid (getNextSequenceNumber db2 sid) none
          .ASSISTANT (.text response.content) (some tcs) (some pc1.id)).2 :: L := by
    rw [hL]
    simp [appendMessage, hmsgs]
  unfold runToolLoop
  simp only []
  split
  · exact ⟨_, findByIdempotencyKey_fresh_any msgs sid k um _ _
      ⟨L, by simp [insertProviderCall, hdb4]⟩ hno humsid humkey humrole humseq
      rfl rfl hamseq⟩
  · exact ⟨_, findByIdempotencyKey_fresh_any msgs sid k um _ _
      ⟨L, by simp [insertProviderCall, hdb4]⟩ hno humsid humkey humrole humseq
      rfl rfl hamseq⟩
  · rename_i finalResponse hfr hfs
    set db4 := storeToolMessages
      (appendMessage db2 sid (getNextSequenceNumber db2 sid) none .ASSISTANT
        (.text response.content) (some tcs) (some pc1.id)).1 sid
      (executeToolCalls reg tor tcs agent.enabledTools) with hdb4eq
    set fr := (executeWithResilience beh
      (buildProviderRequest agent (loadConversationHistory db4 sid) "")
      agent.primaryProvider agent.fallbackProvider).1 with hfreq
    set pc2 := insertProviderCall db4 sid corr fr with hpc2eq
    refine ⟨_, findByIdempotencyKey_fresh_any msgs sid k um _ _
      ⟨L ++ [(appendMessage pc2.1 sid (getNextSequenceNumber pc2.1 sid) none
        .ASSISTANT (.text finalResponse.content) finalResponse.toolCalls
        (some pc2.2.id)).2], ?_⟩ hno humsid humkey humrole humseq rfl rfl hamseq⟩
    rw [createUsageEvent_messages, createUsageEvent_messages]
    simp only [appendMessage]
    rw [hpc2eq]
    simp only [insertProviderCall]
    rw [hdb4]
    simp [appendMessage]

/-- Any successful `sendMessage` run with an idempotency key leaves the table
in a state where `findByIdempotencyKey` retrieves an ASSISTANT message. -/
theorem sendMessage_success_spec (beh : Behavior) (reg : List String) (tor : ToolOracle)
    (db : DB) (tid sid : String) (input : SendMessageInput) (k : String) (out : SendOutcome)
    (hk : input.idempotencyKey = some k)
    (hrun : sendMessage beh reg tor db tid sid input = out)
    (hok : out.result.isOk = true) :
    ∃ am, findByIdempotencyKey out.db sid k = some am := by
  cases hfind : findByIdempotencyKey db sid k with
  | some m0 =>
      have heval : sendMessage beh reg tor db tid sid input
          = ⟨.ok (formatMessageResponse db m0), db, []⟩ := by
        unfold sendMessage
        simp only [hk, hfind]
      rw [heval] at hrun
      subst hrun
      exact ⟨m0, hfind⟩
  | none =>
      have heval : sendMessage beh reg tor db tid sid input
          = sendMessageLocked beh reg tor db tid sid input
              (input.correlationId.getD "corr-generated") := by
        unfold sendMessage
        simp only [hk, hfind]
      rw [heval] at hrun
      unfold sendMessageLocked at hrun
      split at hrun
      · subst hrun
        simp [Except.isOk, Except.toBool] at hok
      · simp only [sendMessageBody] at hrun
        rw [hk] at hrun
        split at hrun
        · subst hrun
          simp [Except.isOk, Except.toBool] at hok
        · rename_i session agent hses
          split at hrun
          · subst hrun
            simp [Except.isOk, Except.toBool] at hok
          · split at hrun
            · subst hrun
              simp [Except.isOk, Except.toBool] at hok
            · rename_i db1 um hins
              rw [insertMessage] at hins
              split at hins
              · exact absurd hins (by simp)
              · rename_i hany
                simp only [appendMessage, Except.ok.injEq, Prod.mk.injEq] at hins
                obtain ⟨hdb1, hum⟩ := hins
                have hdb1m : db1.messages = db.messages ++ [um] := by
                  rw [← hdb1, ← hum]
                have humsid : um.sessionId = sid := by rw [← hum]
                have humkey : um.idempotencyKey = some k := by rw [← hum]
                have humrole : um.role = MessageRole.USER := by rw [← hum]
                have humseq : um.sequenceNumber = msgsMaxSeq sid db.messages + 1 := by
                  rw [← hum]; rfl
                split at hrun
                · subst hrun
                  simp [Except.isOk, Except.toBool] at hok
                · subst hrun
                  simp [Except.isOk, Except.toBool] at hok
                · rename_i response hresp hsucc
                  split at hrun
                  · -- tool-call branch
                    subst hrun
                    exact runToolLoop_find beh reg tor _ _ tid sid _ agent session
                      response _ db.messages um k (by simp [insertProviderCall, hdb1m])
                      (any_eq_false_key hany) humsid humkey humrole humseq
                  · -- no-tool branch
                    subst hrun
                    exact finishNoTool_find _ _ tid sid agent session response
                      db.messages um k (by simp [insertProviderCall, hdb1m])
                      (any_eq_false_key hany) humsid humkey humrole humseq

/-- What a successful `findByIdempotencyKey` lookup guarantees about the
retrieved message. -/
theorem findByIdempotencyKey_props {db : DB} {sid k : String} {am : Msg}
    (h : findByIdempotencyKey db sid k = some am) :
    am ∈ db.messages ∧ am.role = MessageRole.ASSISTANT ∧ am.sessionId = sid ∧
    ∃ um ∈ db.messages, um.role = MessageRole.USER ∧ um.idempotencyKey = some k ∧
      um.sessionId = sid ∧ am.sequenceNumber = um.sequenceNumber + 1 := by
  unfold findByIdempotencyKey at h
  cases hu : db.messages.find? (fun m =>
      decide (m.sessionId = sid ∧ m.idempotencyKey = some k ∧
        m.role = MessageRole.USER)) with
  | none => rw [hu] at h; exact absurd h (by simp)
  | some um =>
      rw [hu] at h
      have hummem := List.mem_of_find?_eq_some hu
      have humP := List.find?_some hu
      simp only [decide_eq_true_eq] at humP
      have hammem := List.mem_of_find?_eq_some h
      have hamP := List.find?_some h
      simp only [decide_eq_true_eq] at hamP
      exact ⟨hammem, hamP.2.2, hamP.1,
        um, hummem, humP.2.2, humP.2.1, humP.1, hamP.2.1⟩

theorem getProviderCallStatus_ne_success (o : Option String) :
    getProviderCallStatus o ≠ ProviderCallStatus.SUCCESS := by
  unfold getProviderCallStatus
  split <;> simp

/-! ## Orchestrator path analysis -/

/-- Shape of one `executeWithRetry` path: the retry state grows by an
invocation log `L` and an error list `E` belonging to this provider only; the
path makes at most `remaining` invocations and at least one when `remaining ≥
1`; the result's cumulative attempt number equals the final state's; a failed
path records at least one error and carries no response. -/
theorem executeWithRetry_spec (beh : Behavior) (req : ProviderRequest)
    (p : Provider) (f : Bool) :
    ∀ remaining st,
      ∃ L E,
        (executeWithRetry beh req p f remaining st).2.callLog = st.callLog ++ L ∧
        (executeWithRetry beh req p f remaining st).2.errors = st.errors ++ E ∧
        (executeWithRetry beh req p f remaining st).2.attemptNumber
          = st.attemptNumber + L.length ∧
        (executeWithRetry beh req p f remaining st).1.attemptNumber
          = (executeWithRetry beh req p f remaining st).2.attemptNumber ∧
        L.length ≤ remaining ∧
        (1 ≤ remaining → L ≠ []) ∧
        (∀ c ∈ L, c.provider = p ∧ c.isFallback = f) ∧
        (∀ e ∈ E, e.provider = p) ∧
        ((executeWithRetry beh req p f remaining st).1.success = false →
          1 ≤ remaining → E ≠ []) ∧
        (executeWithRetry beh req p f remaining st).1.provider = p ∧
        (executeWithRetry beh req p f remaining st).1.isFallback = f ∧
        ((executeWithRetry beh req p f remaining st).1.success = false →
          (executeWithRetry beh req p f remaining st).1.response = none) := by
  intro remaining
  induction remaining with
  | zero =>
      intro st
      refine ⟨[], [], ?_⟩
      simp [executeWithRetry]
  | succ n ih =>
      intro st
      cases hb : beh req p (st.attemptNumber + 1) with
      | ok resp =>
          refine ⟨[⟨p, st.attemptNumber + 1, f⟩], [], ?_⟩
          simp [executeWithRetry, hb]
      | error e =>
          cases hretry : (!isRetryableError e || decide (n = 0)) with
          | true =>
              refine ⟨[⟨p, st.attemptNumber + 1, f⟩], [⟨p, e, st.attemptNumber + 1⟩], ?_⟩
              simp [executeWithRetry, hb, hretry]
          | false =>
              have hrec := ih
                { st with
                  attemptNumber := st.attemptNumber + 1
                  callLog := st.callLog ++ [⟨p, st.attemptNumber + 1, f⟩]
                  errors := st.errors ++ [⟨p, e, st.attemptNumber + 1⟩] }
              obtain ⟨L, E, h1, h2, h3, h4, h5, h6, h7, h8, h9, h10, h11, h12⟩ := hrec
              refine ⟨⟨p, st.attemptNumber + 1, f⟩ :: L, ⟨p, e, st.attemptNumber + 1⟩ :: E, ?_⟩
              rw [show executeWithRetry beh req p f (n + 1) st
                  = executeWithRetry beh req p f n
                      { st with
                        attemptNumber := st.attemptNumber + 1
                        callLog := st.callLog ++ [⟨p, st.attemptNumber + 1, f⟩]
                        errors := st.errors ++ [⟨p, e, st.attemptNumber + 1⟩] } by
                simp [executeWithRetry, hb, hretry]]
              refine ⟨by simpa using h1, by simpa using h2, by simp at h3 ⊢; omega,
                h4, by simp at h5 ⊢; omega, by simp,
                ?_, ?_, fun _ _ => by simp, h10, h11, h12⟩
              · intro c hc
                rcases List.mem_cons.mp hc with rfl | hm
                · exact ⟨rfl, rfl⟩
                · exact h7 c hm
              · intro en hen
                rcases List.mem_cons.mp hen with rfl | hm
                · rfl
                · exact h8 en hm

theorem getLast?_of_ne_nil {α : Type} : ∀ {l : List α}, l ≠ [] → ∃ a, l.getLast? = some a
  | [], h => absurd rfl h
  | [x], _ => ⟨x, rfl⟩
  | x :: y :: ys, _ => by
      obtain ⟨a, ha⟩ := getLast?_of_ne_nil (l := y :: ys) (by simp)
      exact ⟨a, by rw [List.getLast?_cons_cons]; exact ha⟩

theorem finalFailureResult_success (primary : Provider) (fb : Option Provider)
    (st : RetryState) : (finalFailureResult primary fb st).success = false := by
  unfold finalFailureResult
  cases st.errors.getLast? <;> rfl

theorem finalFailureResult_attemptNumber (primary : Provider) (fb : Option Provider)
    (st : RetryState) : (finalFailureResult primary fb st).attemptNumber = st.attemptNumber := by
  unfold finalFailureResult
  cases st.errors.getLast? <;> rfl

theorem finalFailureResult_response (primary : Provider) (fb : Option Provider)
    (st : RetryState) : (finalFailureResult primary fb st).response = none := by
  unfold finalFailureResult
  cases st.errors.getLast? <;> rfl

/-- When every adapter attempt throws, the orchestrator reports failure with no
response. -/
theorem executeWithResilience_fails (beh : Behavior)
    (hfail : ∀ req p n, ∃ e, beh req p n = Except.error e)
    (req : ProviderRequest) (prim : Provider) (fb : Option Provider) :
    (executeWithResilience beh req prim fb).1.success = false ∧
    (executeWithResilience beh req prim fb).1.response = none := by
  have hret : ∀ (p : Provider) (f : Bool) (remaining : ℕ) (st : RetryState),
      (executeWithRetry beh req p f remaining st).1.success = false ∧
      (executeWithRetry beh req p f remaining st).1.response = none := by
    intro p f remaining
    induction remaining with
    | zero => intro st; simp [executeWithRetry]
    | succ n ih =>
        intro st
        obtain ⟨e, he⟩ := hfail req p (st.attemptNumber + 1)
        by_cases hr : (!isRetryableError e || decide (n = 0)) = true
        · simp [executeWithRetry, he, hr]
        · have hr' : (!isRetryableError e || decide (n = 0)) = false := by
            simpa using hr
          simpa [executeWithRetry, he, hr'] using ih _
  unfold executeWithResilience
  simp only []
  split
  · rename_i hsucc
    exact absurd hsucc (by simp [(hret _ _ _ _).1])
  · split
    · split
      · split
        · rename_i hsucc
          exact absurd hsucc (by simp [(hret _ _ _ _).1])
        · exact ⟨finalFailureResult_success _ _ _, finalFailureResult_response _ _ _⟩
      · exact ⟨finalFailureResult_success _ _ _, finalFailureResult_response _ _ _⟩
    · exact ⟨finalFailureResult_success _ _ _, finalFailureResult_response _ _ _⟩


theorem pricing_nonneg (p : Provider) :
    0 ≤ (PRICING p).inputPricePerKTokens ∧ 0 ≤ (PRICING p).outputPricePerKTokens := by
  cases p <;> constructor <;> norm_num [PRICING]

theorem ceil_superadd (x y : ℚ) : ⌈x⌉ + ⌈y⌉ - 1 ≤ ⌈x + y⌉ := by
  have h1 : (⌈x⌉ : ℚ) < x + 1 := Int.ceil_lt_add_one x
  have h2 : (⌈y⌉ : ℚ) < y + 1 := Int.ceil_lt_add_one y
  have h3 : x + y ≤ (⌈x + y⌉ : ℚ) := Int.le_ceil _
  have h4 : ((⌈x⌉ + ⌈y⌉ : ℤ) : ℚ) < ((⌈x + y⌉ + 2 : ℤ) : ℚ) := by push_cast; linarith
  have h5 : (⌈x⌉ + ⌈y⌉ : ℤ) < ⌈x + y⌉ + 2 := by exact_mod_cast h4
  omega

theorem calculateCost_eq (p : Provider) (tIn tOut : ℕ) :
    calculateCost p tIn tOut
      = ⌈((tIn : ℚ) / 1000 * (PRICING p).inputPricePerKTokens
          + (tOut : ℚ) / 1000 * (PRICING p).outputPricePerKTokens) * 100⌉ := rfl

/-- `executeWithResilience`'s invocation log splits into a primary part and a
fallback part, each within the per-path budget, and the reported cumulative
attempt number counts exactly those invocations. -/
theorem executeWithResilience_split (beh : Behavior) (req : ProviderRequest)
    (primary : Provider) (fb : Option Provider) :
    ∃ Lp Lf : List CallEntry,
      (executeWithResilience beh req primary fb).2.callLog = Lp ++ Lf ∧
      Lp.length ≤ configRetry.maxAttempts ∧
      Lf.length ≤ configRetry.maxAttempts ∧
      (∀ c ∈ Lp, c.provider = primary ∧ c.isFallback = false) ∧
      (∀ c ∈ Lf, c.isFallback = true) ∧
      (executeWithResilience beh req primary fb).1.attemptNumber
        = Lp.length + Lf.length := by
  obtain ⟨Lp, Ep, h1, h2, h3, h4, h5, h6, h7, h8, h9, h10, h11, h12⟩ :=
    executeWithRetry_spec beh req primary false configRetry.maxAttempts ⟨0, [], []⟩
  simp only [List.nil_append] at h1 h2
  unfold executeWithResilience
  simp only []
  split
  · exact ⟨Lp, [], by simpa using h1, by omega, by simp,
      fun c hc => h7 c hc, by simp, by rw [h4, h3]; simp⟩
  · split
    · rename_i q
      split
      · obtain ⟨Lf, Ef, g1, g2, g3, g4, g5, g6, g7, g8, g9, g10, g11, g12⟩ :=
          executeWithRetry_spec beh req q true configRetry.maxAttempts
            (executeWithRetry beh req primary false configRetry.maxAttempts ⟨0, [], []⟩).2
        split
        · refine ⟨Lp, Lf, by rw [g1, h1], by omega, by omega,
            fun c hc => h7 c hc, fun c hc => (g7 c hc).2, ?_⟩
          rw [g4, g3, h3]
          simp
        · refine ⟨Lp, Lf, by rw [g1, h1], by omega, by omega,
            fun c hc => h7 c hc, fun c hc => (g7 c hc).2, ?_⟩
          rw [finalFailureResult_attemptNumber, g3, h3]
          simp
      · refine ⟨Lp, [], by simpa using h1, by omega, by simp,
          fun c hc => h7 c hc, by simp, ?_⟩
        rw [finalFailureResult_attemptNumber, h3]
        simp
    · refine ⟨Lp, [], by simpa using h1, by omega, by simp,
        fun c hc => h7 c hc, by simp, ?_⟩
      rw [finalFailureResult_attemptNumber, h3]
      simp

/-! # Claim theorems -/

/-- **C6.** `MAX_ATTEMPTS = 3` by default; every `executeWithResilience` call
makes at most `MAX_ATTEMPTS` adapter attempts on the primary path and at most
`MAX_ATTEMPTS` on the fallback path, hence at most `2 · MAX_ATTEMPTS` in total;
the cumulative `attemptNumber` reported in the result equals the number of
adapter attempts and so is also at most `2 · MAX_ATTEMPTS`; and an attempt that
fails with a non-retryable error ends its path immediately (no further attempt
on that path). -/
theorem claim_C6_retry_bound (beh : Behavior) (req : ProviderRequest)
    (primary : Provider) (fb : Option Provider) :
    configRetry.maxAttempts = 3 ∧
    (∃ Lp Lf : List CallEntry,
      (executeWithResilience beh req primary fb).2.callLog = Lp ++ Lf ∧
      Lp.length ≤ configRetry.maxAttempts ∧ Lf.length ≤ configRetry.maxAttempts ∧
      (∀ c ∈ Lp, c.provider = primary ∧ c.isFallback = false) ∧
      (∀ c ∈ Lf, c.isFallback = true)) ∧
    (executeWithResilience beh req primary fb).2.callLog.length
        ≤ 2 * configRetry.maxAttempts ∧
    (executeWithResilience beh req primary fb).1.attemptNumber
        = (executeWithResilience beh req primary fb).2.callLog.length ∧
    (executeWithResilience beh req primary fb).1.attemptNumber
        ≤ 2 * configRetry.maxAttempts ∧
    (∀ (p : Provider) (f : Bool) (remaining : ℕ) (st : RetryState) (e : AdapterError),
      1 ≤ remaining →
      beh req p (st.attemptNumber + 1) = .error e →
      isRetryableError e = false →
      (executeWithRetry beh req p f remaining st).2.attemptNumber
        = st.attemptNumber + 1) := by
  obtain ⟨Lp, Lf, hlog, hLp, hLf, hprov, hfb, hatt⟩ :=
    executeWithResilience_split beh req primary fb
  have hlen : (executeWithResilience beh req primary fb).2.callLog.length
      = Lp.length + Lf.length := by rw [hlog]; simp
  refine ⟨rfl, ⟨Lp, Lf, hlog, hLp, hLf, hprov, hfb⟩, by omega, by omega, by omega, ?_⟩
  intro p f remaining st e h1 hb hr
  cases remaining with
  | zero => omega
  | succ n => simp [executeWithRetry, hb, hr]

/-- **C5.** After the primary path exits without success, the fallback path
runs if and only if a fallback provider is configured and differs from the
primary: when fallback is absent or equal to primary, no fallback invocation
happens, the final state is exactly the primary path's state, and the overall
result is a failure whose provider and cumulative attempt count come from the
primary path's attempts alone; when a distinct fallback is configured, at least
one fallback invocation happens. -/
theorem claim_C5_fallback_iff (beh : Behavior) (req : ProviderRequest)
    (primary : Provider) (fb : Option Provider)
    (hpfail : (executeWithRetry beh req primary false configRetry.maxAttempts
        ⟨0, [], []⟩).1.success = false) :
    ((fb = none ∨ fb = some primary) →
        (executeWithResilience beh req primary fb).2
          = (executeWithRetry beh req primary false configRetry.maxAttempts
              ⟨0, [], []⟩).2 ∧
        (∀ c ∈ (executeWithResilience beh req primary fb).2.callLog,
          c.provider = primary ∧ c.isFallback = false) ∧
        (executeWithResilience beh req primary fb).1.success = false ∧
        (executeWithResilience beh req primary fb).1.provider = primary ∧
        (executeWithResilience beh req primary fb).1.attemptNumber
          = (executeWithRetry beh req primary false configRetry.maxAttempts
              ⟨0, [], []⟩).2.attemptNumber) ∧
    (∀ q, fb = some q → q ≠ primary →
        ∃ c ∈ (executeWithResilience beh req primary fb).2.callLog,
          c.isFallback = true) := by
  obtain ⟨Lp, Ep, h1, h2, h3, h4, h5, h6, h7, h8, h9, h10, h11, h12⟩ :=
    executeWithRetry_spec beh req primary false configRetry.maxAttempts ⟨0, [], []⟩
  simp only [List.nil_append] at h1 h2
  have hone : 1 ≤ configRetry.maxAttempts := by norm_num [configRetry]
  have hEp : Ep ≠ [] := h9 hpfail hone
  obtain ⟨le, hle⟩ := getLast?_of_ne_nil hEp
  have hleProv : le.provider = primary := h8 le (getLast?_mem hle)
  have hlast : (executeWithRetry beh req primary false configRetry.maxAttempts
      ⟨0, [], []⟩).2.errors.getLast? = some le := by rw [h2]; exact hle
  constructor
  · intro hcase
    have hgoal : ∀ hfbeq : (fb = none ∨ fb = some primary),
        (executeWithResilience beh req primary fb)
          = (finalFailureResult primary fb
              (executeWithRetry beh req primary false configRetry.maxAttempts
                ⟨0, [], []⟩).2,
             (executeWithRetry beh req primary false configRetry.maxAttempts
                ⟨0, [], []⟩).2) := by
      intro hfbeq
      unfold executeWithResilience
      simp only []
      rw [if_neg (by simp [hpfail])]
      rcases hfbeq with rfl | rfl
      · rfl
      · simp
    rw [hgoal hcase]
    refine ⟨rfl, ?_, finalFailureResult_success _ _ _, ?_,
      finalFailureResult_attemptNumber _ _ _⟩
    · intro c hc
      rw [h1] at hc
      exact h7 c hc
    · unfold finalFailureResult
      rw [hlast]
      exact hleProv
  · intro q hq hne
    subst hq
    obtain ⟨Lf, Ef, g1, g2, g3, g4, g5, g6, g7, g8, g9, g10, g11, g12⟩ :=
      executeWithRetry_spec beh req q true configRetry.maxAttempts
        (executeWithRetry beh req primary false configRetry.maxAttempts ⟨0, [], []⟩).2
    have hLf : Lf ≠ [] := g6 hone
    obtain ⟨c, hc⟩ := List.exists_mem_of_ne_nil Lf hLf
    have hclog : (executeWithResilience beh req primary (some q)).2.callLog
        = (executeWithRetry beh req primary false configRetry.maxAttempts
            ⟨0, [], []⟩).2.callLog ++ Lf := by
      unfold executeWithResilience
      simp only []
      rw [if_neg (by simp [hpfail]), if_pos hne]
      split
      · exact g1
      · exact g1
    refine ⟨c, ?_, (g7 c hc).2⟩
    rw [hclog]
    exact List.mem_append_right _ hc

/-- **C9.** For every provider and all non-negative integer token counts,
`calculateCost` is the ceiling of
`(tokensIn/1000 · inP + tokensOut/1000 · outP) · 100`, a non-negative integer;
it is `0` when both token counts are `0`; and it is superadditive up to one
cent: `calculateCost p (a+b) (c+d) ≥ calculateCost p a c + calculateCost p b d − 1`. -/
theorem claim_C9_pricing (p : Provider) (tIn tOut a b c d : ℕ) :
    calculateCost p tIn tOut
        = ⌈((tIn : ℚ) / 1000 * (PRICING p).inputPricePerKTokens
            + (tOut : ℚ) / 1000 * (PRICING p).outputPricePerKTokens) * 100⌉ ∧
    0 ≤ calculateCost p tIn tOut ∧
    calculateCost p 0 0 = 0 ∧
    calculateCost p a c + calculateCost p b d - 1 ≤ calculateCost p (a + b) (c + d) := by
  obtain ⟨hin, hout⟩ := pricing_nonneg p
  refine ⟨calculateCost_eq p tIn tOut, ?_, ?_, ?_⟩
  · rw [calculateCost_eq]
    apply Int.ceil_nonneg
    have : 0 ≤ (tIn : ℚ) / 1000 * (PRICING p).inputPricePerKTokens
        + (tOut : ℚ) / 1000 * (PRICING p).outputPricePerKTokens := by
      have ha : 0 ≤ (tIn : ℚ) / 1000 := by positivity
      have hb : 0 ≤ (tOut : ℚ) / 1000 := by positivity
      exact add_nonneg (mul_nonneg ha hin) (mul_nonneg hb hout)
    positivity
  · rw [calculateCost_eq]
    norm_num
  · rw [calculateCost_eq, calculateCost_eq, calculateCost_eq]
    have hsplit : ((((a + b) : ℕ) : ℚ) / 1000 * (PRICING p).inputPricePerKTokens
          + (((c + d) : ℕ) : ℚ) / 1000 * (PRICING p).outputPricePerKTokens) * 100
        = ((a : ℚ) / 1000 * (PRICING p).inputPricePerKTokens
            + (c : ℚ) / 1000 * (PRICING p).outputPricePerKTokens) * 100
          + ((b : ℚ) / 1000 * (PRICING p).inputPricePerKTokens
            + (d : ℚ) / 1000 * (PRICING p).outputPricePerKTokens) * 100 := by
      push_cast
      ring
    rw [hsplit]
    exact ceil_superadd _ _

/-- **C3.** For two `sendMessage` invocations with identical
`(sessionId, idempotencyKey)` where the first completed successfully, the
second returns the stored assistant response — the ASSISTANT message found at
the matching USER message's `sequenceNumber + 1`, formatted with its
ProviderCall metadata — and performs no lock acquisition, no provider call and
no billing (its effect trace is empty and it runs identically under any
adapter or tool oracle), leaving the database, hence the message-table row
count, unchanged. -/
theorem claim_C3_idempotent_replay (beh : Behavior) (reg : List String)
    (tor : ToolOracle) (db : DB) (tenantId sessionId : String)
    (input : SendMessageInput) (k : String) (out : SendOutcome)
    (hk : input.idempotencyKey = some k)
    (hrun : sendMessage beh reg tor db tenantId sessionId input = out)
    (hok : out.result.isOk = true) :
    ∃ am, findByIdempotencyKey out.db sessionId k = some am ∧
      am.role = MessageRole.ASSISTANT ∧
      (∃ um ∈ out.db.messages, um.role = MessageRole.USER ∧
        um.idempotencyKey = some k ∧ am.sequenceNumber = um.sequenceNumber + 1) ∧
      ∀ (beh2 : Behavior) (reg2 : List String) (tor2 : ToolOracle),
        sendMessage beh2 reg2 tor2 out.db tenantId sessionId input
          = ⟨.ok (formatMessageResponse out.db am), out.db, []⟩ := by
  obtain ⟨am, ham⟩ := sendMessage_success_spec beh reg tor db tenantId sessionId
    input k out hk hrun hok
  obtain ⟨_, hrole, _, um, hummem, humrole, humkey, _, hseq⟩ :=
    findByIdempotencyKey_props ham
  refine ⟨am, ham, hrole, ⟨um, hummem, humrole, humkey, hseq⟩, ?_⟩
  intro beh2 reg2 tor2
  unfold sendMessage
  simp only [hk, ham]

/-- Witness for C3 at a concrete database, input and oracle. -/
theorem claim_C3_idempotent_replay_witness :
    ∃ am, findByIdempotencyKey (sendMessage behOk registeredTools torOk db0
          "tenant-1" "session-1" ⟨"hi", some "K", none⟩).db "session-1" "K"
        = some am ∧
      am.role = MessageRole.ASSISTANT ∧
      (∃ um ∈ (sendMessage behOk registeredTools torOk db0 "tenant-1" "session-1"
          ⟨"hi", some "K", none⟩).db.messages, um.role = MessageRole.USER ∧
        um.idempotencyKey = some "K" ∧
        am.sequenceNumber = um.sequenceNumber + 1) ∧
      ∀ (beh2 : Behavior) (reg2 : List String) (tor2 : ToolOracle),
        sendMessage beh2 reg2 tor2
            (sendMessage behOk registeredTools torOk db0 "tenant-1" "session-1"
              ⟨"hi", some "K", none⟩).db "tenant-1" "session-1"
            ⟨"hi", some "K", none⟩
          = ⟨.ok (formatMessageResponse
                (sendMessage behOk registeredTools torOk db0 "tenant-1" "session-1"
                  ⟨"hi", some "K", none⟩).db am),
             (sendMessage behOk registeredTools torOk db0 "tenant-1" "session-1"
               ⟨"hi", some "K", none⟩).db, []⟩ :=
  claim_C3_idempotent_replay behOk registeredTools torOk db0 "tenant-1"
    "session-1" ⟨"hi", some "K", none⟩ "K"
    (sendMessage behOk registeredTools torOk db0 "tenant-1" "session-1"
      ⟨"hi", some "K", none⟩) rfl rfl (by decide)

/-- **C2** (documenting the code bug): when the orchestrator reports failure
for the provider call, the pipeline ends there — no ASSISTANT message is
persisted, the session lock is released, the USER message remains with its
idempotency key consumed, a failed ProviderCall row is persisted and no usage
event is created — but the error thrown is a `ValidationError`
(code `VALIDATION_ERROR`, HTTP 400), not the `PROVIDER_ERROR` (502) that the
spec and the repository's own error table prescribe for provider failure. -/
theorem claim_C2_provider_failure (beh : Behavior) (reg : List String)
    (tor : ToolOracle) (db : DB) (tenantId sessionId : String)
    (input : SendMessageInput) (out : SendOutcome)
    (session : SessionRow) (agent : AgentRow)
    (hlock : db.sessionLocks.contains sessionId = false)
    (hpre : ∀ k, input.idempotencyKey = some k →
      findByIdempotencyKey db sessionId k = none)
    (hnodup : ∀ k, input.idempotencyKey = some k →
      ∀ x ∈ db.messages, ¬(x.sessionId = sessionId ∧ x.idempotencyKey = some k))
    (hses : getSessionWithAgent db tenantId sessionId = .ok (session, agent))
    (hact : session.status = SessionStatus.ACTIVE)
    (hfail : ∀ req p n, ∃ e, beh req p n = Except.error e)
    (hrun : sendMessage beh reg tor db tenantId sessionId input = out) :
    (∃ msg, out.result = .error (SendErr.validation msg)) ∧
    (∀ e, out.result = .error e → e.code = "VALIDATION_ERROR" ∧
      e.code ≠ "PROVIDER_ERROR") ∧
    (∃ um, out.db.messages = db.messages ++ [um] ∧ um.role = MessageRole.USER ∧
      um.idempotencyKey = input.idempotencyKey ∧
      um.content = Content.text input.content) ∧
    (∀ m ∈ out.db.messages, m.role = MessageRole.ASSISTANT → m ∈ db.messages) ∧
    out.db.sessionLocks = db.sessionLocks ∧
    (∃ pcr, out.db.providerCalls = db.providerCalls ++ [pcr] ∧
      pcr.status ≠ ProviderCallStatus.SUCCESS) ∧
    out.db.usageEvents = db.usageEvents := by
  have hlock' : ¬(db.sessionLocks.contains sessionId = true) := by
    rw [hlock]
    exact Bool.false_ne_true
  have hses' : getSessionWithAgent
      { db with sessionLocks := sessionId :: db.sessionLocks }
      tenantId sessionId = .ok (session, agent) := hses
  have hact' : ¬(session.status ≠ SessionStatus.ACTIVE) := by simp [hact]
  have hins : insertMessage { db with sessionLocks := sessionId :: db.sessionLocks }
      sessionId (getNextSequenceNumber
        { db with sessionLocks := sessionId :: db.sessionLocks } sessionId)
      input.idempotencyKey .USER (.text input.content) none none
      = .ok (appendMessage { db with sessionLocks := sessionId :: db.sessionLocks }
        sessionId (getNextSequenceNumber
          { db with sessionLocks := sessionId :: db.sessionLocks } sessionId)
        input.idempotencyKey .USER (.text input.content) none none) := by
    unfold insertMessage
    split
    · rename_i k hik
      rw [if_neg]
      intro hany
      obtain ⟨x, hx, hxp⟩ := List.any_eq_true.mp hany
      simp only [decide_eq_true_eq] at hxp
      exact hnodup k hik x hx hxp
    · rfl
  obtain ⟨hfs, hfr⟩ := executeWithResilience_fails beh hfail
    (buildProviderRequest agent
      (loadConversationHistory
        { db with sessionLocks := sessionId :: db.sessionLocks } sessionId)
      input.content)
    agent.primaryProvider agent.fallbackProvider
  have heval : sendMessage beh reg tor db tenantId sessionId input
      = sendMessageLocked beh reg tor db tenantId sessionId input
          (input.correlationId.getD "corr-generated") := by
    unfold sendMessage
    cases hik : input.idempotencyKey with
    | none => rfl
    | some k => simp only [hpre k hik]
  rw [heval] at hrun
  unfold sendMessageLocked at hrun
  rw [if_neg hlock'] at hrun
  simp only [sendMessageBody, hses', hfr, hfs] at hrun
  rw [if_neg hact'] at hrun
  rw [hins] at hrun
  simp only [] at hrun
  subst hrun
  refine ⟨⟨_, rfl⟩, ?_, ?_, ?_, ?_, ?_, rfl⟩
  · intro e he
    simp only [Except.error.injEq] at he
    subst he
    exact ⟨rfl, by simp [SendErr.code]⟩
  · exact ⟨_, by simp [insertProviderCall, appendMessage]; rfl, rfl, rfl, rfl⟩
  · intro m hm hrole
    simp only [insertProviderCall, appendMessage] at hm
    rcases List.mem_append.mp hm with h1 | h2
    · exact h1
    · simp at h2
      rw [h2] at hrole
      exact absurd hrole (by simp)
  · simp [insertProviderCall, appendMessage]
  · exact ⟨_, by simp [insertProviderCall, appendMessage]; rfl,
      by simp [hfs, getProviderCallStatus_ne_success]⟩

/-- Witness for C2 at a concrete database and an always-failing adapter. -/
theorem claim_C2_provider_failure_witness :
    (db0.sessionLocks.contains "session-1" = false) ∧
    (getSessionWithAgent db0 "tenant-1" "session-1"
      = .ok (demoSession, demoAgent)) ∧
    demoSession.status = SessionStatus.ACTIVE ∧
    ((∃ msg, (sendMessage behFail registeredTools torOk db0 "tenant-1" "session-1"
        ⟨"hi", some "K", none⟩).result = .error (SendErr.validation msg)) ∧
     (∀ e, (sendMessage behFail registeredTools torOk db0 "tenant-1" "session-1"
        ⟨"hi", some "K", none⟩).result = .error e →
        e.code = "VALIDATION_ERROR" ∧ e.code ≠ "PROVIDER_ERROR") ∧
     (∃ um, (sendMessage behFail registeredTools torOk db0 "tenant-1" "session-1"
        ⟨"hi", some "K", none⟩).db.messages = db0.messages ++ [um] ∧
        um.role = MessageRole.USER ∧ um.idempotencyKey = some "K" ∧
        um.content = Content.text "hi") ∧
     (∀ m ∈ (sendMessage behFail registeredTools torOk db0 "tenant-1" "session-1"
        ⟨"hi", some "K", none⟩).db.messages,
        m.role = MessageRole.ASSISTANT → m ∈ db0.messages) ∧
     (sendMessage behFail registeredTools torOk db0 "tenant-1" "session-1"
        ⟨"hi", some "K", none⟩).db.sessionLocks = db0.sessionLocks ∧
     (∃ pcr, (sendMessage behFail registeredTools torOk db0 "tenant-1" "session-1"
        ⟨"hi", some "K", none⟩).db.providerCalls = db0.providerCalls ++ [pcr] ∧
        pcr.status ≠ ProviderCallStatus.SUCCESS) ∧
     (sendMessage behFail registeredTools torOk db0 "tenant-1" "session-1"
        ⟨"hi", some "K", none⟩).db.usageEvents = db0.usageEvents) :=
  ⟨rfl, rfl, rfl,
   claim_C2_provider_failure behFail registeredTools torOk db0 "tenant-1"
     "session-1" ⟨"hi", some "K", none⟩
     (sendMessage behFail registeredTools torOk db0 "tenant-1" "session-1"
       ⟨"hi", some "K", none⟩)
     demoSession demoAgent rfl (by intro k hk; cases hk; rfl)
     (by intro k hk; cases hk; intro x hx; cases hx)
     rfl rfl
     (fun _ _ _ => ⟨.providerError (some 500) false "Internal server error", rfl⟩)
     rfl⟩

/-- **C8 counterexample.** In `dbRaced` the key "K" is consumed by a USER
message with no assistant reply, so the step-1 short-circuit finds nothing and
step 6's insert violates the `(sessionId, idempotencyKey)` unique constraint.
The claim says the pipeline re-drives the idempotency check and returns the
prior stored response instead of an error; the code instead lets the raw
`P2002` propagate: the call returns an error, never a response. -/
theorem claim_C8_counterexample :
    (sendMessage behOk registeredTools torOk dbRaced "tenant-1" "session-1"
        ⟨"hello again", some "K", none⟩).result
      = .error (SendErr.uncaught "P2002") ∧
    (sendMessage behOk registeredTools torOk dbRaced "tenant-1" "session-1"
        ⟨"hello again", some "K", none⟩).db = dbRaced ∧
    ∀ r, (sendMessage behOk registeredTools torOk dbRaced "tenant-1" "session-1"
        ⟨"hello again", some "K", none⟩).result ≠ .ok r := by
  have h1 : (sendMessage behOk registeredTools torOk dbRaced "tenant-1" "session-1"
      ⟨"hello again", some "K", none⟩).result = .error (SendErr.uncaught "P2002") := by
    decide
  exact ⟨h1, by rfl, fun r h => by rw [h1] at h; exact absurd h (by simp)⟩

/-- **C8 amended.** When inserting the USER message in step 6 hits the unique
constraint on `(session, idempotencyKey)`, `sendMessage` does not catch it:
the raw `P2002` propagates to the caller (surfaced as `INTERNAL_ERROR` by the
boundary error handler), no re-drive of step 1's short-circuit happens, the
lock is released, and the database is unchanged. -/
theorem claim_C8_uncaught_conflict (beh : Behavior) (reg : List String)
    (tor : ToolOracle) (db : DB) (tenantId sessionId : String)
    (input : SendMessageInput) (k : String) (session : SessionRow) (agent : AgentRow)
    (hk : input.idempotencyKey = some k)
    (hfind : findByIdempotencyKey db sessionId k = none)
    (hlock : db.sessionLocks.contains sessionId = false)
    (hses : getSessionWithAgent db tenantId sessionId = .ok (session, agent))
    (hact : session.status = SessionStatus.ACTIVE)
    (hdup : ∃ x ∈ db.messages, x.sessionId = sessionId ∧ x.idempotencyKey = some k) :
    sendMessage beh reg tor db tenantId sessionId input
      = ⟨.error (SendErr.uncaught "P2002"), db, [.lockAcquired]⟩ ∧
    (SendErr.uncaught "P2002").code = "INTERNAL_ERROR" := by
  have hses' : getSessionWithAgent
      { db with sessionLocks := sessionId :: db.sessionLocks }
      tenantId sessionId = .ok (session, agent) := hses
  have hact' : ¬(session.status ≠ SessionStatus.ACTIVE) := by simp [hact]
  have hinserr : insertMessage
      { db with sessionLocks := sessionId :: db.sessionLocks } sessionId
      (getNextSequenceNumber
        { db with sessionLocks := sessionId :: db.sessionLocks } sessionId)
      (some k) .USER (.text input.content) none none = .error () := by
    simp only [insertMessage]
    rw [if_pos]
    obtain ⟨x, hx, h1, h2⟩ := hdup
    exact List.any_eq_true.mpr ⟨x, hx, by simp [h1, h2]⟩
  constructor
  · unfold sendMessage
    simp only [hk, hfind]
    unfold sendMessageLocked
    rw [if_neg (by rw [hlock]; exact Bool.false_ne_true)]
    simp only [sendMessageBody, hses', hk]
    rw [if_neg hact']
    rw [hinserr]
    simp [List.erase_cons_head]
  · rfl

/-- Witness for the amended C8 at the concrete raced database. -/
theorem claim_C8_uncaught_conflict_witness :
    sendMessage behOk registeredTools torOk dbRaced "tenant-1" "session-1"
        ⟨"hello again", some "K", none⟩
      = ⟨.error (SendErr.uncaught "P2002"), dbRaced, [.lockAcquired]⟩ ∧
    (SendErr.uncaught "P2002").code = "INTERNAL_ERROR" :=
  claim_C8_uncaught_conflict behOk registeredTools torOk dbRaced "tenant-1"
    "session-1" ⟨"hello again", some "K", none⟩ "K" demoSession demoAgent
    rfl (by decide) rfl rfl rfl (by decide)

/-- **C7** (documenting the code bug): for a session holding 51 messages with
sequence numbers 1..51 (message `i` carrying content `toString i`) and the
default `maxHistoryMessages = 50`, `loadConversationHistory` returns 50
messages that include the OLDEST message (sequence 1) and exclude the newest
(sequence 51): the positive Prisma `take` keeps the first 50 rows of the
ascending order, not the most recent 50 that the claim — and the repository's
own architecture document, which spells `take: -MAX_HISTORY_MESSAGES` — call
for. -/
theorem claim_C7_history_oldest :
    maxHistoryMessages = 50 ∧
    (loadConversationHistory db51 "session-1").length = 50 ∧
    (∃ c ∈ loadConversationHistory db51 "session-1", c.content = toString 1) ∧
    (∀ c ∈ loadConversationHistory db51 "session-1", c.content ≠ toString 51) := by
  decide

/-- **C4.** `getNextSequenceNumber` returns `max(existing sequenceNumber) + 1`
over the session's messages — `1` for a session with no messages — the
allocated number exceeds every existing sequence number of the session, and
allocating then inserting at the allocated number makes the next allocation
return its successor, so successive allocate-insert rounds yield strictly
increasing, gap-free, 1-based sequence numbers per session. -/
theorem claim_C4_sequence (db : DB) (sessionId : String)
    (key : Option String) (role : MessageRole) (content : Content)
    (tcs : Option (List ToolCall)) (pcid : Option ℕ) :
    getNextSequenceNumber db sessionId = sessionMaxSeq db sessionId + 1 ∧
    (db.messages.filter (fun m => decide (m.sessionId = sessionId)) = [] →
      getNextSequenceNumber db sessionId = 1) ∧
    (∀ m ∈ db.messages, m.sessionId = sessionId →
      m.sequenceNumber < getNextSequenceNumber db sessionId) ∧
    getNextSequenceNumber
        (appendMessage db sessionId (getNextSequenceNumber db sessionId) key role
          content tcs pcid).1 sessionId
      = getNextSequenceNumber db sessionId + 1 := by
  refine ⟨rfl, ?_, ?_, ?_⟩
  · intro h
    unfold getNextSequenceNumber sessionMaxSeq msgsMaxSeq
    rw [h]
    rfl
  · intro m hm hs
    have := le_msgsMaxSeq hm hs
    unfold getNextSequenceNumber sessionMaxSeq
    omega
  · unfold getNextSequenceNumber sessionMaxSeq
    simp only [appendMessage]
    rw [msgsMaxSeq_append, msgsMaxSeq_singleton]
    simp

/-- First invocation of the billing recorder on an unbilled SUCCESS call in a
non-demo session: exactly one usage event appears and every matching
provider-call row is marked billed. -/
theorem createUsageEvent_first (db : DB) (tenantId agentId sessionId : String)
    (pc : PCall)
    (hst : pc.status = ProviderCallStatus.SUCCESS)
    (hue : billedCount db pc.id = 0)
    (hrow : ∃ r ∈ db.providerCalls, r.id = pc.id ∧ r.billed = false) :
    billedCount (createUsageEvent db tenantId agentId sessionId false pc) pc.id = 1 ∧
    (∀ r ∈ (createUsageEvent db tenantId agentId sessionId false pc).providerCalls,
      r.id = pc.id → r.billed = true) := by
  have hfil : db.usageEvents.filter (fun u => decide (u.providerCallId = pc.id)) = [] :=
    List.length_eq_zero.mp hue
  have hany : (db.usageEvents.any (fun u => decide (u.providerCallId = pc.id))) = false := by
    rw [List.any_eq_false]
    intro u hu
    have := List.filter_eq_nil.mp hfil u hu
    simpa using this
  have hcnt : (db.providerCalls.filter
      (fun r => decide (r.id = pc.id ∧ r.billed = false))).length ≠ 0 := by
    obtain ⟨r, hr, h1, h2⟩ := hrow
    have : r ∈ db.providerCalls.filter
        (fun r => decide (r.id = pc.id ∧ r.billed = false)) :=
      List.mem_filter.mpr ⟨hr, by simp [h1, h2]⟩
    intro hlen
    rw [List.length_eq_zero.mp hlen] at this
    cases this
  unfold createUsageEvent
  rw [if_neg (by simp), if_neg (by simp [hst]), if_neg hcnt, if_neg (by simp [hany])]
  constructor
  · unfold billedCount
    simp only [List.filter_append, hfil]
    simp
  · intro r hr hid
    simp only [List.mem_map] at hr
    obtain ⟨r0, hr0, hr0eq⟩ := hr
    by_cases hmatch : r0.id = pc.id ∧ r0.billed = false
    · rw [← hr0eq]
      simp [hmatch]
    · have hr0r : r0 = r := by
        rw [← hr0eq, if_neg (by simpa using hmatch)]
      rw [← hr0r] at hid ⊢
      rcases Bool.eq_false_or_eq_true r0.billed with hb | hb
      · exact hb
      · exact absurd ⟨hid, hb⟩ hmatch

/-- Once every matching provider-call row is billed, the recorder is a silent
no-op. -/
theorem createUsageEvent_noop (d : DB) (tenantId agentId sessionId : String)
    (pc : PCall)
    (hall : ∀ r ∈ d.providerCalls, r.id = pc.id → r.billed = true) :
    createUsageEvent d tenantId agentId sessionId false pc = d := by
  unfold createUsageEvent
  rw [if_neg (by simp)]
  split
  · rfl
  · rw [if_pos]
    rw [List.length_eq_zero]
    rw [List.filter_eq_nil]
    intro r hr
    simp only [decide_eq_true_eq, not_and]
    intro hid
    rw [hall r hr hid]
    simp

/-- **C1.** Billing is exactly-once per provider call: for a ProviderCall with
`status = SUCCESS` belonging to a non-demo session (starting from the state in
which the pipeline created it: unbilled, no usage event referencing it),
invoking `createUsageEvent` any number of times creates at most one UsageEvent
referencing the call — the count is in `{0, 1}` and equals `1` once billing has
been invoked — and every repeated invocation is a silent no-op (the conditional
`billed = false` update matches zero rows and the recorder returns without
changing state or raising an error). -/
theorem claim_C1_exactly_once (db : DB) (tenantId agentId sessionId : String)
    (pc : PCall)
    (hst : pc.status = ProviderCallStatus.SUCCESS)
    (hue : billedCount db pc.id = 0)
    (hrow : ∃ r ∈ db.providerCalls, r.id = pc.id ∧ r.billed = false) :
    (∀ n, billedCount
        ((fun d => createUsageEvent d tenantId agentId sessionId false pc)^[n] db)
        pc.id ≤ 1) ∧
    (∀ n, 1 ≤ n → billedCount
        ((fun d => createUsageEvent d tenantId agentId sessionId false pc)^[n] db)
        pc.id = 1) ∧
    (∀ n, 1 ≤ n →
      (fun d => createUsageEvent d tenantId agentId sessionId false pc)^[n] db
        = createUsageEvent db tenantId agentId sessionId false pc) := by
  obtain ⟨h1, hall⟩ :=
    createUsageEvent_first db tenantId agentId sessionId pc hst hue hrow
  have hiter : ∀ n, 1 ≤ n →
      (fun d => createUsageEvent d tenantId agentId sessionId false pc)^[n] db
        = createUsageEvent db tenantId agentId sessionId false pc := by
    intro n hn
    induction n with
    | zero => omega
    | succ m ih =>
        rcases Nat.eq_zero_or_pos m with rfl | hm
        · simp
        · rw [Function.iterate_succ_apply', ih hm]
          exact createUsageEvent_noop _ tenantId agentId sessionId pc hall
  refine ⟨?_, ?_, hiter⟩
  · intro n
    rcases Nat.eq_zero_or_pos n with rfl | hn
    · simp only [Function.iterate_zero, id_eq]
      omega
    · rw [hiter n hn, h1]
  · intro n hn
    rw [hiter n hn, h1]

/-- Witness for C1 at a concrete database and provider call. -/
theorem claim_C1_exactly_once_witness :
    pcSample.status = ProviderCallStatus.SUCCESS ∧
    billedCount dbBill pcSample.id = 0 ∧
    (∃ r ∈ dbBill.providerCalls, r.id = pcSample.id ∧ r.billed = false) ∧
    ((∀ n, billedCount
        ((fun d => createUsageEvent d "tenant-1" "agent-1" "session-1" false
          pcSample)^[n] dbBill) pcSample.id ≤ 1) ∧
     (∀ n, 1 ≤ n → billedCount
        ((fun d => createUsageEvent d "tenant-1" "agent-1" "session-1" false
          pcSample)^[n] dbBill) pcSample.id = 1) ∧
     (∀ n, 1 ≤ n →
        (fun d => createUsageEvent d "tenant-1" "agent-1" "session-1" false
          pcSample)^[n] dbBill
          = createUsageEvent dbBill "tenant-1" "agent-1" "session-1" false
              pcSample)) :=
  ⟨rfl, rfl, ⟨pcSample, by decide, rfl, rfl⟩,
   claim_C1_exactly_once dbBill "tenant-1" "agent-1" "session-1" pcSample
     rfl rfl ⟨pcSample, by decide, rfl, rfl⟩⟩

/-- Witness for C5: under an always-failing adapter, a distinct configured
fallback (`VENDOR_B` after primary `VENDOR_A`) is actually invoked. -/
theorem claim_C5_fallback_iff_witness :
    (executeWithRetry behFail reqDummy Provider.VENDOR_A false
        configRetry.maxAttempts ⟨0, [], []⟩).1.success = false ∧
    ∃ c ∈ (executeWithResilience behFail reqDummy Provider.VENDOR_A
        (some Provider.VENDOR_B)).2.callLog, c.isFallback = true :=
  ⟨by decide,
   (claim_C5_fallback_iff behFail reqDummy Provider.VENDOR_A
       (some Provider.VENDOR_B) (by decide)).2
     Provider.VENDOR_B rfl (by decide)⟩

theorem toolMessageCount_storeToolMessages (sid : String) (rs : List ToolResult)
    (db : DB) :
    toolMessageCount (storeToolMessages db sid rs) = toolMessageCount db + rs.length := by
  obtain ⟨L, h1, h2, h3⟩ := storeToolMessages_messages sid rs db
  unfold toolMessageCount
  rw [h1, List.filter_append, List.length_append]
  have hLf : L.filter (fun m => decide (m.role = MessageRole.TOOL)) = L :=
    List.filter_eq_self.mpr (fun m hm => by simp [h3 m hm])
  rw [hLf, h2]

theorem toolMessageCount_appendMessage (db : DB) (sid : String) (seq : ℕ)
    (ik : Option String) (c : Content) (tcs : Option (List ToolCall))
    (pcid : Option ℕ) :
    toolMessageCount (appendMessage db sid seq ik MessageRole.ASSISTANT c tcs pcid).1
      = toolMessageCount db := by
  simp [toolMessageCount, appendMessage, List.filter_append]

theorem toolMessageCount_insertProviderCall (db : DB) (sid corr : String)
    (res : ProviderCallResult) :
    toolMessageCount (insertProviderCall db sid corr res).1 = toolMessageCount db := rfl

theorem toolMessageCount_createUsageEvent (db : DB) (t a s : String) (d : Bool)
    (pc : PCall) :
    toolMessageCount (createUsageEvent db t a s d pc) = toolMessageCount db := by
  unfold toolMessageCount
  rw [createUsageEvent_messages]

/-- Whatever the tool oracle does, the tool round persists exactly one TOOL
message per requested call and always makes the follow-up provider call. -/
theorem runToolLoop_count (beh : Behavior) (reg : List String) (tor : ToolOracle)
    (db2 : DB) (pc1 : PCall) (tid sid corr : String) (agent : AgentRow)
    (session : SessionRow) (response : ProviderResponse) (tcs : List ToolCall) :
    toolMessageCount (runToolLoop beh reg tor db2 pc1 tid sid corr agent session
        response tcs).db = toolMessageCount db2 + tcs.length ∧
    (runToolLoop beh reg tor db2 pc1 tid sid corr agent session response
        tcs).trace.count Event.providerInvoked = 2 := by
  have hdb4 : toolMessageCount (storeToolMessages
      (appendMessage db2 sid (getNextSequenceNumber db2 sid) none .ASSISTANT
        (.text response.content) (some tcs) (some pc1.id)).1 sid
      (executeToolCalls reg tor tcs agent.enabledTools))
      = toolMessageCount db2 + tcs.length := by
    rw [toolMessageCount_storeToolMessages, toolMessageCount_appendMessage]
    simp [executeToolCalls]
  unfold runToolLoop
  simp only []
  split
  · exact ⟨by rw [toolMessageCount_insertProviderCall]; exact hdb4, by rfl⟩
  · exact ⟨by rw [toolMessageCount_insertProviderCall]; exact hdb4, by rfl⟩
  · refine ⟨?_, by rfl⟩
    rw [toolMessageCount_createUsageEvent, toolMessageCount_createUsageEvent,
      toolMessageCount_appendMessage, toolMessageCount_insertProviderCall]
    exact hdb4

/-- **C10.** A failing tool call never aborts the message pipeline: for every
tool call in an assistant response, `executeToolCalls` catches whatever tool
execution raises — unregistered tool (NOT_FOUND), tool outside the agent's
enabled set (FORBIDDEN), declared-timeout expiry, or a thrown exception — and
converts it into a per-call result `{id, result: null, error}` (one result per
call, with the call's own id); consequently the tool round persists exactly one
TOOL message per requested call and the follow-up provider call always
proceeds. -/
theorem claim_C10_tool_errors (registered enabled : List String) (tor : ToolOracle)
    (calls : List ToolCall) (i : ℕ) (h1 : i < calls.length) :
    (executeToolCalls registered tor calls enabled).length = calls.length ∧
    (∃ h2 : i < (executeToolCalls registered tor calls enabled).length,
      ((executeToolCalls registered tor calls enabled).get ⟨i, h2⟩).id
          = (calls.get ⟨i, h1⟩).id ∧
      (registered.contains (calls.get ⟨i, h1⟩).name = false →
        (executeToolCalls registered tor calls enabled).get ⟨i, h2⟩
          = ⟨(calls.get ⟨i, h1⟩).id, none,
             some ("Tool '" ++ (calls.get ⟨i, h1⟩).name ++ "' not found")⟩) ∧
      (registered.contains (calls.get ⟨i, h1⟩).name = true →
       enabled.contains (calls.get ⟨i, h1⟩).name = false →
        (executeToolCalls registered tor calls enabled).get ⟨i, h2⟩
          = ⟨(calls.get ⟨i, h1⟩).id, none,
             some ("Tool '" ++ (calls.get ⟨i, h1⟩).name
               ++ "' is not enabled for this agent")⟩) ∧
      (registered.contains (calls.get ⟨i, h1⟩).name = true →
       enabled.contains (calls.get ⟨i, h1⟩).name = true →
       tor (calls.get ⟨i, h1⟩).name (calls.get ⟨i, h1⟩).args = ExecOutcome.timesOut →
        (executeToolCalls registered tor calls enabled).get ⟨i, h2⟩
          = ⟨(calls.get ⟨i, h1⟩).id, none,
             some ("Tool '" ++ (calls.get ⟨i, h1⟩).name ++ "' timed out")⟩) ∧
      (∀ msg, registered.contains (calls.get ⟨i, h1⟩).name = true →
       enabled.contains (calls.get ⟨i, h1⟩).name = true →
       tor (calls.get ⟨i, h1⟩).name (calls.get ⟨i, h1⟩).args = ExecOutcome.throws msg →
        (executeToolCalls registered tor calls enabled).get ⟨i, h2⟩
          = ⟨(calls.get ⟨i, h1⟩).id, none, some msg⟩)) ∧
    (∀ (beh : Behavior) (db2 : DB) (pc1 : PCall) (tid sid corr : String)
       (agent : AgentRow) (session : SessionRow) (response : ProviderResponse)
       (tcs : List ToolCall),
      toolMessageCount (runToolLoop beh registered tor db2 pc1 tid sid corr
          agent session response tcs).db = toolMessageCount db2 + tcs.length ∧
      (runToolLoop beh registered tor db2 pc1 tid sid corr agent session
          response tcs).trace.count Event.providerInvoked = 2) := by
  have hlen : (executeToolCalls registered tor calls enabled).length = calls.length := by
    simp [executeToolCalls]
  have h2 : i < (executeToolCalls registered tor calls enabled).length := by
    rw [hlen]; exact h1
  have hget : (executeToolCalls registered tor calls enabled).get ⟨i, h2⟩
      = (match registryExecute registered tor (calls.get ⟨i, h1⟩).name
           (calls.get ⟨i, h1⟩).args enabled with
         | .ok r => ⟨(calls.get ⟨i, h1⟩).id, if r.success then r.data else none, r.error⟩
         | .error e => ⟨(calls.get ⟨i, h1⟩).id, none, some e.message⟩) := by
    simp [executeToolCalls, List.get_eq_getElem, List.getElem_map]
  refine ⟨hlen, ⟨h2, ?_, ?_, ?_, ?_, ?_⟩, ?_⟩
  · rw [hget]
    cases hrr : registryExecute registered tor (calls.get ⟨i, h1⟩).name
        (calls.get ⟨i, h1⟩).args enabled with
    | ok r => simp
    | error e => simp
  · intro hnf
    rw [hget]
    simp at hnf
    simp [registryExecute, RegistryError.message, hnf]
  · intro hreg hen
    rw [hget]
    simp at hreg hen
    simp [registryExecute, RegistryError.message, hreg, hen]
  · intro hreg hen hto
    rw [hget]
    simp only [List.get_eq_getElem] at hto
    simp at hreg hen
    simp [registryExecute, hreg, hen, hto]
  · intro msg hreg hen hth
    rw [hget]
    simp only [List.get_eq_getElem] at hth
    simp at hreg hen
    simp [registryExecute, hreg, hen, hth]
  · intro beh db2 pc1 tid sid corr agent session response tcs
    exact runToolLoop_count beh registered tor db2 pc1 tid sid corr agent session
      response tcs

/-- Witness for C10 at a concrete unregistered tool call and a throwing
oracle. -/
theorem claim_C10_tool_errors_witness :
    0 < ([(⟨"c1", "UnknownTool", ""⟩ : ToolCall)] : List ToolCall).length ∧
    ∃ h2 : 0 < (executeToolCalls registeredTools torThrow
        [⟨"c1", "UnknownTool", ""⟩] ["InvoiceLookup"]).length,
      (executeToolCalls registeredTools torThrow [⟨"c1", "UnknownTool", ""⟩]
          ["InvoiceLookup"]).get ⟨0, h2⟩
        = ⟨"c1", none, some "Tool 'UnknownTool' not found"⟩ := by
  refine ⟨by decide, ?_⟩
  obtain ⟨hlen, ⟨h2, hid, hnf, hfb, hto, hth⟩, hrt⟩ :=
    claim_C10_tool_errors registeredTools ["InvoiceLookup"] torThrow
      [⟨"c1", "UnknownTool", ""⟩] 0 (by decide)
  exact ⟨h2, by rw [hnf (by decide)]; rfl⟩

end VocalBridge
